import Mathlib

/-!
Verification development for the catalog registration pipeline of
`data-curation-tools` (`bin.src/register-release.py` and its helpers).

The pipeline is embedded shallowly:

* Python strings are Lean `String`s; the Python string predicates used by the
  source (`in`, `endswith`, `startswith`, `removesuffix`) are re-implemented on
  the underlying character lists so that every predicate is executable and
  kernel-decidable.
* `DatasetRef` objects are embedded as `Artifact` records carrying the fields
  the script reads: dataset-type name, dimension-name set, data-id attribute
  map, producing run, path relative to the datastore root, and file content.
* The Rucio server side is embedded as a `TargetState` of finite sets: the set
  of existing dataset DIDs, the set of file replicas at the RSE, the set of
  (dataset, file) membership pairs, and the sets of closed and
  archival-tagged datasets.
* The module-level script body (argument handling aside) is embedded as a
  fold over the per-dataset-type artifact groups, threading the local mutable
  state of the script (the `files` replica batch, the `rucio_datasets`
  pending map, the `n_files`/`n_bytes` counters, and the `dsmap` cache).
-/

/-! ### Python string semantics on character lists -/

/-- Python `needle in hay` for strings: substring containment
(the empty needle is contained in everything). -/
def listInfix (needle : List Char) : List Char → Bool
  | [] => needle == []
  | c :: rest => needle.isPrefixOf (c :: rest) || listInfix needle rest

/-- Python `a in b` on strings (substring test). -/
def pyIn (a b : String) : Bool := listInfix a.toList b.toList

/-- Python `s.endswith(suf)`. -/
def pyEndsWith (s suf : String) : Bool := suf.toList.isSuffixOf s.toList

/-- Python `s.startswith(pre)`. -/
def pyStartsWith (s p : String) : Bool := p.toList.isPrefixOf s.toList

/-- Python `s.removesuffix(suf)`. -/
def pyRemovesuffix (s suf : String) : String :=
  if pyEndsWith s suf then String.mk (s.toList.take (s.toList.length - suf.toList.length))
  else s

/-- Python `f"{n:03d}"` for a natural number: decimal, zero-padded to width 3. -/
def pad3 (n : Nat) : String :=
  let s := toString n
  if 3 ≤ s.toList.length then s
  else String.mk (List.replicate (3 - s.toList.length) '0') ++ s

/-! ### Artifacts (`lsst.daf.butler.DatasetRef` as read by the script) -/

/-- The parts of a butler `DatasetRef` (plus its resolved file) that
`register-release.py` reads.  `attrs` is the data-id lookup `ref.dataId[k]`
(all axis values the script reads are integers); `run` is `ref.run`;
`relPath` is the datastore-relative file path used as the Rucio file name;
`inRoot` is the truthiness of `path.relative_to(root)`; `content` is the
byte content of the file, one `Nat` per byte. -/
structure Artifact where
  dstype : String
  dims : List String
  attrs : String → Nat
  run : String
  relPath : String
  inRoot : Bool
  content : List Nat

/-- Line 129: `massive = "tract" in dims and "visit" in dims`. -/
def massiveOf (a : Artifact) : Bool :=
  a.dims.contains "tract" && a.dims.contains "visit"

/-! ### The classifier `map_to_rucio` (lines 120-182) -/

/-- The base-category selection of `map_to_rucio` (lines 131-165), without the
`dsmap` cache.  Note that line 133 tests `dstype in ("skyMap")`, which in
Python is a *substring* test against the single string `"skyMap"`, not a tuple
membership test; it is embedded accordingly. -/
def base_category (dstype : String) (massive : Bool) (run : String) : String :=
  if pyEndsWith dstype "_config" || pyIn dstype "skyMap" then "Configuration"
  else if pyEndsWith dstype "_log" then
    (if massive then "Provenance/" ++ pyRemovesuffix dstype "_log" else "Provenance")
  else if pyEndsWith dstype "_metadata" then
    (if massive then "Provenance/" ++ pyRemovesuffix dstype "_metadata" else "Provenance")
  else if pyIn "/calib/" run then "Calibration"
  else if pyIn "_consolidated_map_" dstype then "Map"
  else if pyIn "_image" dstype || pyIn "_coadd" dstype || pyIn "_background" dstype then
    "Image/" ++ dstype
  else if pyIn "object" dstype || pyIn "source" dstype || pyIn "table" dstype
      || pyIn "summary" dstype then
    "Catalog/" ++ dstype
  else if pyStartsWith dstype "the_monster_" then "ReferenceCatalog"
  else dstype

/-- The dimension-based refinement of `map_to_rucio` (lines 167-181):
tract partitioning (with the un-partitioned exempt set of line 168), or
day-obs partitioning with a visit-derived bucket when a detector axis is
present. -/
def refinePath (a : Artifact) (base : String) : String :=
  if a.dims.contains "tract" then
    (if ["dia_object", "dia_source", "object"].contains a.dstype then base
     else base ++ "/Tract" ++ toString (a.attrs "tract"))
  else if a.dims.contains "visit" then
    (if a.dims.contains "detector" then
      base ++ "/" ++ toString (a.attrs "day_obs") ++ "/"
        ++ pad3 (a.attrs "visit" / 100 % 1000)
     else base ++ "/" ++ toString (a.attrs "day_obs"))
  else base

/-- The module-level `dsmap` cache: `(dstype, massive) ↦ base`.  A Python
`dict` insert for a fresh key is embedded as a cons; lookups find it. -/
abbrev DsMap := List ((String × Bool) × String)

/-- Python `dict` lookup on the `dsmap` cache (key equality). -/
def dsLookup (m : DsMap) (k : String × Bool) : Option String :=
  match m with
  | [] => none
  | (k', v) :: rest => if k = k' then some v else dsLookup rest k

/-- `map_to_rucio(ref)` (lines 123-182) threading the module-level `dsmap`
cache: on a cache hit the cached base category is used, otherwise the base
category is computed (this is the only place `ref.run` is read) and cached
under `(dstype, massive)`.  Returns the final Rucio dataset name
(`"Dataset/" + rucio_dataset`) and the updated cache. -/
def map_to_rucio (dsmap : DsMap) (a : Artifact) : String × DsMap :=
  let key := (a.dstype, massiveOf a)
  match dsLookup dsmap key with
  | some base => ("Dataset/" ++ refinePath a base, dsmap)
  | none =>
    let base := base_category a.dstype (massiveOf a) a.run
    ("Dataset/" ++ refinePath a base, (key, base) :: dsmap)

/-- Classification of consecutive artifacts threading the `dsmap` cache;
returns each artifact paired with the Rucio dataset name it was routed to,
together with the final cache. -/
def classifyGo (m : DsMap) : List Artifact → List (Artifact × String) × DsMap
  | [] => ([], m)
  | a :: rest =>
    let r := map_to_rucio m a
    let tl := classifyGo r.2 rest
    ((a, r.1) :: tl.1, tl.2)

/-- Classification of a whole artifact list in one process: the cache starts
empty (a fresh interpreter) and is threaded through in order. -/
def classifyAll (l : List Artifact) : List (Artifact × String) :=
  (classifyGo [] l).1

example : pyIn "ab" "xaby" = true := by decide
example : pyEndsWith "raw_metadata" "_metadata" = true := by decide
example : pyRemovesuffix "raw_metadata" "_metadata" = "raw" := by decide
example : pad3 (123 / 100 % 1000) = "001" := by decide
example :
    base_category "raw_metadata" false "r" = "Provenance" := by decide
example :
    base_category "raw_metadata" true "r" = "Provenance/raw" := by decide

/-! ### Concrete artifacts used in example theorems -/

/-- Concrete data-id used by the C2 example artifacts. -/
def attrsC2 : String → Nat := fun k =>
  if k == "day_obs" then 20240101
  else if k == "visit" then 123
  else if k == "tract" then 42
  else 0

/-- A `raw_metadata` artifact with dimension set `{visit, detector}`. -/
def c2ArtVisitDetector : Artifact :=
  ⟨"raw_metadata", ["visit", "detector"], attrsC2, "DM-run", "file-a", true, []⟩

/-- A `raw_metadata` artifact with dimension set `{tract, visit}`. -/
def c2ArtTractVisit : Artifact :=
  ⟨"raw_metadata", ["tract", "visit"], attrsC2, "DM-run", "file-b", true, []⟩

/-- Trivial data-id for dimensionless artifacts. -/
def attrsZero : String → Nat := fun _ => 0

/-- An artifact of an otherwise-unclassified type produced by a run whose
name contains `/calib/`. -/
def c3ArtCalib : Artifact := ⟨"thing", [], attrsZero, "u/calib/v", "file-c", true, []⟩

/-- Same type, dimension set and data-id as `c3ArtCalib`, but produced by a
science (non-calibration) run. -/
def c3ArtSci : Artifact := ⟨"thing", [], attrsZero, "science-run", "file-d", true, []⟩

/-- A second science artifact identical to `c3ArtSci` in type, dimension set
and data-id, from yet another run. -/
def c3ArtSci2 : Artifact := ⟨"thing", [], attrsZero, "another-run", "file-e", true, []⟩

/-- C2 counterexample: the classifier never returns the bare base category for
these artifacts.  With dimensions `{visit, detector}` the result is refined by
day-obs and the visit-derived partition bucket, and every result carries the
`Dataset/` prefix of line 182, so it is not the CatalogPath `"Provenance"`;
with `{tract, visit}` the result is refined by `/Tract<N>`, so it is not
`"Provenance/raw"`. -/
theorem c2_classify_example_counterexample :
    (map_to_rucio [] c2ArtVisitDetector).1 = "Dataset/Provenance/20240101/001"
    ∧ (map_to_rucio [] c2ArtVisitDetector).1 ≠ "Provenance"
    ∧ (map_to_rucio [] c2ArtTractVisit).1 = "Dataset/Provenance/raw/Tract42"
    ∧ (map_to_rucio [] c2ArtTractVisit).1 ≠ "Provenance/raw" := by
  refine ⟨by decide, by decide, by decide, by decide⟩

/-- C2 (amended): for an artifact of type `raw_metadata` the *base category*
is `Provenance` when non-massive and `Provenance/raw` when massive, for every
producing run; the full CatalogPath returned by `map_to_rucio` prepends
`Dataset/` and appends the dimension refinement: `<day_obs>/<visit bucket>`
for dimensions `{visit, detector}`, and `Tract<tract>` for `{tract, visit}`. -/
theorem c2_classify_example_amended (attrs : String → Nat) (run rel : String)
    (root : Bool) (content : List Nat) :
    base_category "raw_metadata" false run = "Provenance"
    ∧ base_category "raw_metadata" true run = "Provenance/raw"
    ∧ (map_to_rucio [] ⟨"raw_metadata", ["visit", "detector"], attrs, run, rel, root, content⟩).1
        = "Dataset/" ++ ("Provenance" ++ "/" ++ toString (attrs "day_obs") ++ "/"
            ++ pad3 (attrs "visit" / 100 % 1000))
    ∧ (map_to_rucio [] ⟨"raw_metadata", ["tract", "visit"], attrs, run, rel, root, content⟩).1
        = "Dataset/" ++ ("Provenance/raw" ++ "/Tract" ++ toString (attrs "tract")) :=
  ⟨rfl, rfl, rfl, rfl⟩

/-! ### Write-once behaviour of the classifier cache -/

/-- A cache entry survives one classification step. -/
theorem dsLookup_map_to_rucio_mono (m : DsMap) (a : Artifact) (k : String × Bool)
    (v : String) (h : dsLookup m k = some v) :
    dsLookup (map_to_rucio m a).2 k = some v := by
  unfold map_to_rucio
  cases hm : dsLookup m (a.dstype, massiveOf a) with
  | some b => simp only [hm]; exact h
  | none =>
    have hne : k ≠ (a.dstype, massiveOf a) := by
      rintro rfl
      rw [h] at hm
      exact Option.noConfusion hm
    simp only [hm]
    simpa [dsLookup, hne] using h

/-- Each classification leaves the key it used bound in the cache, and its
output is the dimension refinement of that cached base category. -/
theorem map_to_rucio_result (m : DsMap) (a : Artifact) :
    ∃ b, dsLookup (map_to_rucio m a).2 (a.dstype, massiveOf a) = some b
      ∧ (map_to_rucio m a).1 = "Dataset/" ++ refinePath a b := by
  unfold map_to_rucio
  cases hm : dsLookup m (a.dstype, massiveOf a) with
  | some b =>
    refine ⟨b, ?_, ?_⟩ <;> simp only [hm]
  | none =>
    refine ⟨base_category a.dstype (massiveOf a) a.run, ?_, ?_⟩ <;> simp only [hm]
    simp [dsLookup]

/-- A cache entry survives the classification of a whole artifact list. -/
theorem classifyGo_lookup_mono (l : List Artifact) (m : DsMap) (k : String × Bool)
    (v : String) (h : dsLookup m k = some v) :
    dsLookup (classifyGo m l).2 k = some v := by
  induction l generalizing m with
  | nil => simpa [classifyGo] using h
  | cons a rest ih =>
    simpa [classifyGo] using ih _ (dsLookup_map_to_rucio_mono m a k v h)

/-- Every classified artifact's path is the refinement of the base category
bound to its `(dstype, massive)` key in the final cache. -/
theorem classifyGo_mem (l : List Artifact) (m : DsMap) (p : Artifact × String)
    (hp : p ∈ (classifyGo m l).1) :
    ∃ b, dsLookup (classifyGo m l).2 (p.1.dstype, massiveOf p.1) = some b
      ∧ p.2 = "Dataset/" ++ refinePath p.1 b := by
  induction l generalizing m with
  | nil => simp [classifyGo] at hp
  | cons a rest ih =>
    simp only [classifyGo, List.mem_cons] at hp
    rcases hp with rfl | hp
    · obtain ⟨b, hb1, hb2⟩ := map_to_rucio_result m a
      exact ⟨b, by simpa [classifyGo] using
        classifyGo_lookup_mono rest _ _ _ hb1, hb2⟩
    · obtain ⟨b, hb1, hb2⟩ := ih _ hp
      exact ⟨b, by simpa [classifyGo] using hb1, hb2⟩

/-- The massive flag depends only on the dimension set. -/
theorem massiveOf_congr (a b : Artifact) (hd : a.dims = b.dims) :
    massiveOf a = massiveOf b := by
  simp [massiveOf, hd]

/-- The dimension refinement reads only the type, dimension set and data-id. -/
theorem refinePath_congr (a b : Artifact) (base : String) (ht : a.dstype = b.dstype)
    (hd : a.dims = b.dims) (ha : a.attrs = b.attrs) :
    refinePath a base = refinePath b base := by
  simp [refinePath, ht, hd, ha]

/-- C3 counterexample: two artifacts with identical type, dimension set and
data-id but different producing runs.  In a process that classifies the
calibration artifact first, the science artifact inherits the cached
`Calibration` base; in a fresh process classifying only the science artifact
the result is the type name itself.  So classification is neither independent
of the producing run nor stable across process restarts. -/
theorem c3_classifier_pure_counterexample :
    c3ArtCalib.dstype = c3ArtSci.dstype
    ∧ c3ArtCalib.dims = c3ArtSci.dims
    ∧ c3ArtCalib.attrs = c3ArtSci.attrs
    ∧ (classifyAll [c3ArtCalib, c3ArtSci]).map Prod.snd
        = ["Dataset/Calibration", "Dataset/Calibration"]
    ∧ (classifyAll [c3ArtSci]).map Prod.snd = ["Dataset/thing"]
    ∧ ("Dataset/Calibration" : String) ≠ "Dataset/thing" :=
  ⟨rfl, rfl, rfl, by decide, by decide, by decide⟩

/-- C3 (amended): within one process the classifier is consistent — any two
artifacts of the run with identical `(type, dimension-set, data-id)` receive
the identical CatalogPath, whatever their producing runs and whatever was
classified before them, because the `(type, massive)` cache entry is written
once and the refinement reads only the type, dimensions and data-id.  (Across
process restarts the result may change, as the counterexample shows, because
the base category consults the producing run's calibration status on a cache
miss.) -/
theorem c3_classifier_pure_amended (l : List Artifact) (p q : Artifact × String)
    (hp : p ∈ classifyAll l) (hq : q ∈ classifyAll l)
    (ht : p.1.dstype = q.1.dstype) (hd : p.1.dims = q.1.dims)
    (ha : p.1.attrs = q.1.attrs) :
    p.2 = q.2 := by
  obtain ⟨b1, hb1, he1⟩ := classifyGo_mem l [] p hp
  obtain ⟨b2, hb2, he2⟩ := classifyGo_mem l [] q hq
  have hk : (p.1.dstype, massiveOf p.1) = (q.1.dstype, massiveOf q.1) := by
    rw [ht, massiveOf_congr p.1 q.1 hd]
  rw [hk, hb2] at hb1
  rw [he1, he2, refinePath_congr p.1 q.1 b1 ht hd ha, Option.some_inj.mp hb1]

/-- Witness for the amended C3 theorem: two distinct science artifacts with
the same type, dimensions and data-id but different runs and file names are
routed to the same CatalogPath within one process. -/
theorem c3_classifier_pure_witness :
    ((c3ArtSci, "Dataset/thing") : Artifact × String).2
      = ((c3ArtSci2, "Dataset/thing") : Artifact × String).2 := by
  have h1 : (map_to_rucio [] c3ArtSci).1 = "Dataset/thing" := by decide
  have h2 : (map_to_rucio (map_to_rucio [] c3ArtSci).2 c3ArtSci2).1
      = "Dataset/thing" := by decide
  have hp : (c3ArtSci, "Dataset/thing") ∈ classifyAll [c3ArtSci, c3ArtSci2] := by
    show (c3ArtSci, "Dataset/thing")
      ∈ [(c3ArtSci, (map_to_rucio [] c3ArtSci).1),
         (c3ArtSci2, (map_to_rucio (map_to_rucio [] c3ArtSci).2 c3ArtSci2).1)]
    rw [h1]
    exact List.mem_cons_self _ _
  have hq : (c3ArtSci2, "Dataset/thing") ∈ classifyAll [c3ArtSci, c3ArtSci2] := by
    show (c3ArtSci2, "Dataset/thing")
      ∈ [(c3ArtSci, (map_to_rucio [] c3ArtSci).1),
         (c3ArtSci2, (map_to_rucio (map_to_rucio [] c3ArtSci).2 c3ArtSci2).1)]
    rw [h2]
    exact List.mem_cons_of_mem _ (List.mem_cons_self _ _)
  exact c3_classifier_pure_amended [c3ArtSci, c3ArtSci2]
    (c3ArtSci, "Dataset/thing") (c3ArtSci2, "Dataset/thing") hp hq rfl rfl rfl

/-! ### Checksum engine (lines 261-272)

The script streams each file in 10 MiB chunks, feeding every chunk to an
accumulated size, an md5 object and a running `zlib.adler32` value seeded
with `zlib.adler32(b"")`.  adler32 is embedded by its actual algorithm
(RFC 1950): a pair of mod-65521 sums packed as `b * 65536 + a`.  The md5
object is embedded by its absorbed byte stream: `md5.update` concatenates,
and the final digest is a pure function of the absorbed stream, so digest
equality is exactly absorbed-stream equality. -/

/-- One byte of the adler32 fold: `a' = (a + byte) % 65521`,
`b' = (b + a') % 65521`. -/
def adlerStep (p : Nat × Nat) (b : Nat) : Nat × Nat :=
  ((p.1 + b) % 65521, (p.2 + (p.1 + b) % 65521) % 65521)

/-- `zlib.adler32(buf, start)`: unpack the running value into its two sums,
fold the buffer, and repack.  `zlib.adler32(b"")` is `adler32 [] 1 = 1`. -/
def adler32 (buf : List Nat) (start : Nat) : Nat :=
  let p := buf.foldl adlerStep (start % 65536, start / 65536 % 65536)
  p.2 * 65536 + p.1

/-- The per-file checksum state of lines 262-264: accumulated byte count,
absorbed md5 stream, running adler32 value. -/
structure ChecksumRecord where
  size : Nat
  md5Absorbed : List Nat
  adler : Nat
deriving DecidableEq, Repr

/-- One iteration of the read loop (lines 267-270) on one chunk. -/
def checksumStep (r : ChecksumRecord) (buf : List Nat) : ChecksumRecord :=
  { size := r.size + buf.length
    md5Absorbed := r.md5Absorbed ++ buf
    adler := adler32 buf r.adler }

/-- The initial checksum state (lines 262-264). -/
def checksumInit : ChecksumRecord :=
  { size := 0, md5Absorbed := [], adler := adler32 [] 1 }

/-- Successive `fd.read(c)` results: the next `c` bytes until exhaustion
(fuelled by the total length, which suffices for any positive `c`). -/
def readChunksAux (c : Nat) : List Nat → Nat → List (List Nat)
  | [], _ => []
  | _ :: _, 0 => []
  | l, fuel + 1 => l.take c :: readChunksAux c (l.drop c) fuel

/-- The chunk sequence a read loop with read size `c` sees for `content`. -/
def readChunks (c : Nat) (content : List Nat) : List (List Nat) :=
  readChunksAux c content content.length

/-- The whole checksum loop of lines 261-272 with read size `c`. -/
def checksumContent (c : Nat) (content : List Nat) : ChecksumRecord :=
  (readChunks c content).foldl checksumStep checksumInit

/-- The default read size of line 267: 10 MiB. -/
def chunkBytes : Nat := 10 * 1024 * 1024

/-- The adler32 fold keeps both sums below 2^16 whenever they start there. -/
theorem adlerFold_lt (buf : List Nat) (p : Nat × Nat)
    (h1 : p.1 < 65536) (h2 : p.2 < 65536) :
    (buf.foldl adlerStep p).1 < 65536 ∧ (buf.foldl adlerStep p).2 < 65536 := by
  induction buf generalizing p with
  | nil => exact ⟨h1, h2⟩
  | cons b rest ih =>
    refine ih _ ?_ ?_ <;>
      exact lt_trans (Nat.mod_lt _ (by decide)) (by decide)

/-- A running adler32 value always fits in 32 bits. -/
theorem adler32_lt (buf : List Nat) (s : Nat) : adler32 buf s < 4294967296 := by
  unfold adler32
  dsimp only
  obtain ⟨h1, h2⟩ := adlerFold_lt buf (s % 65536, s / 65536 % 65536)
    (Nat.mod_lt _ (by decide)) (Nat.mod_lt _ (by decide))
  omega

/-- Checksumming an empty buffer (an empty read) keeps the running value. -/
theorem adler32_nil (s : Nat) (hs : s < 4294967296) : adler32 [] s = s := by
  unfold adler32
  simp only [List.foldl_nil]
  omega

/-- Carrying the running adler32 value across a chunk boundary is the same as
checksumming the concatenation: the streaming update of line 270 composes. -/
theorem adler32_append (x y : List Nat) (s : Nat) :
    adler32 (x ++ y) s = adler32 y (adler32 x s) := by
  unfold adler32
  rw [List.foldl_append]
  obtain ⟨h1, h2⟩ := adlerFold_lt x (s % 65536, s / 65536 % 65536)
    (Nat.mod_lt _ (by decide)) (Nat.mod_lt _ (by decide))
  set q := x.foldl adlerStep (s % 65536, s / 65536 % 65536) with hqdef
  have e1 : (q.2 * 65536 + q.1) % 65536 = q.1 := by omega
  have e2 : (q.2 * 65536 + q.1) / 65536 % 65536 = q.2 := by omega
  rw [e1, e2]

/-- Folding the read-loop body over any chunk decomposition accumulates the
size of, absorbs, and adler-checksums exactly the concatenation. -/
theorem checksumFold_join (chunks : List (List Nat)) (r : ChecksumRecord)
    (hr : r.adler < 4294967296) :
    chunks.foldl checksumStep r
      = { size := r.size + chunks.flatten.length
          md5Absorbed := r.md5Absorbed ++ chunks.flatten
          adler := adler32 chunks.flatten r.adler } := by
  induction chunks generalizing r with
  | nil => simp [adler32_nil r.adler hr]
  | cons ch rest ih =>
    rw [List.foldl_cons, ih (checksumStep r ch) (adler32_lt ch r.adler)]
    simp [checksumStep, adler32_append, Nat.add_assoc]

/-- Chunking with any positive read size and rejoining is the identity. -/
theorem readChunksAux_join (c : Nat) (hc : 0 < c) (fuel : Nat) :
    ∀ l : List Nat, l.length ≤ fuel → (readChunksAux c l fuel).flatten = l := by
  induction fuel with
  | zero =>
    intro l hl
    rw [Nat.le_zero, List.length_eq_zero] at hl
    subst hl
    rfl
  | succ f ih =>
    intro l hl
    cases l with
    | nil => rfl
    | cons b rest =>
      simp only [List.length_cons] at hl
      have hdrop : ((b :: rest).drop c).length ≤ f := by
        rw [List.length_drop]
        simp only [List.length_cons]
        omega
      simp only [readChunksAux, List.flatten]
      rw [ih _ hdrop, List.take_append_drop]

/-- C9: checksum determinism.  For every byte content and every positive read
size, the chunked incremental computation of lines 261-272 (size
accumulation, md5 absorption, adler32 carried across chunks from the empty
seed) equals the single-pass computation over the whole content. -/
theorem c9_checksum_deterministic (content : List Nat) (c : Nat) (hc : 0 < c) :
    checksumContent c content
      = { size := content.length
          md5Absorbed := content
          adler := adler32 content 1 } := by
  unfold checksumContent readChunks
  rw [checksumFold_join _ _ (adler32_lt [] 1),
    readChunksAux_join c hc content.length content le_rfl]
  simp [checksumInit, adler32_nil 1 (by decide)]

/-- Witness for C9 at read size 3 over a five-byte content. -/
theorem c9_checksum_deterministic_witness :
    0 < 3
    ∧ checksumContent 3 [10, 20, 30, 40, 50]
        = { size := [10, 20, 30, 40, 50].length
            md5Absorbed := [10, 20, 30, 40, 50]
            adler := adler32 [10, 20, 30, 40, 50] 1 } :=
  ⟨by decide, c9_checksum_deterministic [10, 20, 30, 40, 50] 3 (by decide)⟩

/-! ### Retry executor (lines 99-117)

The `retry` helper calls the wrapped function, catching exactly
`sqlalchemy.exc.InterfaceError`, `sqlalchemy.exc.OperationalError` and
`rucio.common.exception.RucioException`; on such a fault it sleeps
`random.uniform(2, 10)` and retries, up to `max_retries = 10` attempts, then
raises `RuntimeError("Unable to communicate with database")`.  Any other
exception propagates out of the first attempt.  The wrapped callable is
embedded as an attempt-indexed oracle `f`, and the random sleep durations as
an oracle `rng`. -/

/-- The exception taxonomy the script distinguishes (lines 108-112). -/
inductive PyErr where
  | interfaceError (msg : String)
  | operationalError (msg : String)
  | rucioException (msg : String)
  | otherError (msg : String)
deriving DecidableEq, Repr

/-- Whether the except clause of lines 108-112 catches the exception. -/
def isTransient : PyErr → Bool
  | .interfaceError _ => true
  | .operationalError _ => true
  | .rucioException _ => true
  | .otherError _ => false

/-- How a `retry` call ends: a value, the terminal
`RuntimeError("Unable to communicate with database")` of line 117, or an
uncaught exception propagating. -/
inductive RetryOutcome (α : Type) where
  | ok (a : α)
  | commFault
  | raised (e : PyErr)
deriving DecidableEq, Repr

/-- Observable behaviour of one `retry` call: its outcome, how many times the
wrapped function was invoked, and the sleep durations in order. -/
structure RetryTrace (α : Type) where
  outcome : RetryOutcome α
  attempts : Nat
  sleeps : List ℚ
deriving DecidableEq, Repr

/-- The while loop of lines 105-115, with `i` the index of the next attempt
and the remaining attempt budget as fuel; exhausting the budget reaches
line 117. -/
def retryAux (f : Nat → Except PyErr α) (rng : Nat → ℚ) (i : Nat) :
    Nat → RetryTrace α
  | 0 => ⟨.commFault, 0, []⟩
  | r + 1 =>
    match f i with
    | .ok a => ⟨.ok a, 1, []⟩
    | .error e =>
      if isTransient e then
        let t := retryAux f rng (i + 1) r
        ⟨t.outcome, t.attempts + 1, rng i :: t.sleeps⟩
      else ⟨.raised e, 1, []⟩

/-- `retry(retry_label, func, ...)` (lines 99-117): up to
`max_retries = 10` attempts. -/
def retry (f : Nat → Except PyErr α) (rng : Nat → ℚ) : RetryTrace α :=
  retryAux f rng 0 10

/-- A call failing with a transient fault on every attempt exhausts exactly
its fuel, sleeping once per failed attempt. -/
theorem retryAux_all_transient (f : Nat → Except PyErr α) (rng : Nat → ℚ)
    (h : ∀ n, ∃ e, f n = .error e ∧ isTransient e = true) (r i : Nat) :
    retryAux f rng i r = ⟨.commFault, r, (List.range r).map (fun j => rng (i + j))⟩ := by
  induction r generalizing i with
  | zero => rfl
  | succ r ih =>
    obtain ⟨e, he, ht⟩ := h i
    simp only [retryAux, he, ht, if_true, ih (i + 1)]
    refine congrArg _ ?_
    rw [List.range_succ_eq_map, List.map_cons, List.map_map, Nat.add_zero]
    refine congrArg _ (List.map_congr_left fun j hj => ?_)
    simp only [Function.comp_apply]
    exact congrArg rng (by omega)

/-- C6: retry bound.  A call raising a transient (database/Rucio connectivity
class) fault on every attempt is attempted exactly 10 times, with a sleep
drawn from the uniform-`[2, 10)` oracle after each of the 10 failures, and
ends in the fatal communication fault of line 117; a call raising a
non-transient fault on its first attempt is attempted exactly once and that
fault propagates with no sleep. -/
theorem c6_retry_bound (α : Type) (f : Nat → Except PyErr α) (rng : Nat → ℚ)
    (e0 : PyErr) :
    ((∀ n, ∃ e, f n = .error e ∧ isTransient e = true) →
      (∀ n, 2 ≤ rng n ∧ rng n < 10) →
        retry f rng = ⟨.commFault, 10, (List.range 10).map rng⟩
        ∧ ∀ s ∈ (retry f rng).sleeps, 2 ≤ s ∧ s < 10)
    ∧ (f 0 = .error e0 → isTransient e0 = false →
        retry f rng = ⟨.raised e0, 1, []⟩) := by
  constructor
  · intro h hb
    have hr : retry f rng = ⟨.commFault, 10, (List.range 10).map rng⟩ := by
      rw [retry, retryAux_all_transient f rng h 10 0]
      simp
    refine ⟨hr, ?_⟩
    rw [hr]
    intro s hs
    simp only [List.mem_map] at hs
    obtain ⟨j, _, rfl⟩ := hs
    exact hb j
  · intro he ht
    rw [retry]
    simp [retryAux, he, ht]

/-- Witness for C6: a Rucio connectivity fault on every attempt gives 10
attempts and the communication fault; an unrelated exception gives a single
attempt that propagates. -/
theorem c6_retry_bound_witness :
    retry (fun _ => (Except.error (PyErr.rucioException "down") : Except PyErr Unit))
        (fun _ => (5 : ℚ))
      = ⟨.commFault, 10, (List.range 10).map (fun _ => (5 : ℚ))⟩
    ∧ retry (fun _ => (Except.error (PyErr.otherError "boom") : Except PyErr Unit))
        (fun _ => (5 : ℚ))
      = ⟨.raised (PyErr.otherError "boom"), 1, []⟩ :=
  ⟨((c6_retry_bound Unit _ _ (PyErr.otherError "z")).1
      (fun _ => ⟨PyErr.rucioException "down", rfl, rfl⟩)
      (fun _ => ⟨by norm_num, by norm_num⟩)).1,
   (c6_retry_bound Unit _ _ (PyErr.otherError "boom")).2 rfl rfl⟩

/-! ### Which remote calls are wrapped by the retry executor -/

/-- The remote operations the script performs. -/
inductive RemoteOp where
  | queryDatasetTypes
  | queryDatasets
  | getDid
  | addDataset
  | listReplicas
  | addReplicas
  | listContent
  | addFilesToDataset
  | closeDataset
  | setMetadata
deriving DecidableEq, Repr

/-- Whether each call site wraps the operation in `retry`, transcribed from
the source: `queryDatasetTypes` (line 203) and `query_datasets` (line 218)
are wrapped; `get_did` (line 244), `add_dataset` (line 249),
`list_replicas` (lines 287, 329), `list_content` (lines 307, 340),
`close` (line 358) and `set_metadata` (line 359) are called directly;
`add_replicas` (lines 293, 335) and `add_files_to_dataset` (lines 316, 347)
are wrapped. -/
def retryWrapped : RemoteOp → Bool
  | .queryDatasetTypes => true
  | .queryDatasets => true
  | .getDid => false
  | .addDataset => false
  | .listReplicas => false
  | .addReplicas => true
  | .listContent => false
  | .addFilesToDataset => true
  | .closeDataset => false
  | .setMetadata => false

/-- The Rucio calls the pipeline makes (C7 lists these). -/
def pipelineRemoteCalls : List RemoteOp :=
  [.getDid, .listReplicas, .listContent, .addReplicas, .addFilesToDataset,
   .addDataset, .closeDataset, .setMetadata]

/-- Execution of one remote operation as the script performs it: through
`retry` when the call site wraps it, otherwise as a single direct attempt
out of which any exception propagates. -/
def performRemote (op : RemoteOp) (f : Nat → Except PyErr α) (rng : Nat → ℚ) :
    RetryTrace α :=
  if retryWrapped op then retry f rng
  else
    match f 0 with
    | .ok a => ⟨.ok a, 1, []⟩
    | .error e => ⟨.raised e, 1, []⟩

/-- C7 counterexample: `get_did` is one of the pipeline's remote calls, is not
wrapped by the retry executor, and a transient Rucio connectivity fault in it
is fatal after a single attempt instead of being retried. -/
theorem c7_all_calls_retried_counterexample :
    RemoteOp.getDid ∈ pipelineRemoteCalls
    ∧ retryWrapped RemoteOp.getDid = false
    ∧ performRemote RemoteOp.getDid
        (fun _ => (Except.error (PyErr.rucioException "conn") : Except PyErr Unit))
        (fun _ => (5 : ℚ))
      = ⟨.raised (PyErr.rucioException "conn"), 1, []⟩ :=
  ⟨by decide, rfl, rfl⟩

/-- C7 (amended): only the two bulk inserts (`add_replicas`,
`add_files_to_dataset`) and the two butler queries are wrapped by the retry
executor; the existence checks, dataset creation, sealing and archival
tagging are called directly, so a persistent transient fault in a wrapped
call makes 10 attempts and becomes the communication fault, while in an
unwrapped call it propagates out of the single attempt. -/
theorem c7_all_calls_retried_amended (op : RemoteOp) (α : Type) (e : PyErr)
    (rng : Nat → ℚ) (he : isTransient e = true) :
    retryWrapped op
      = [RemoteOp.queryDatasetTypes, RemoteOp.queryDatasets, RemoteOp.addReplicas,
         RemoteOp.addFilesToDataset].contains op
    ∧ (retryWrapped op = true →
        performRemote op (fun _ => (.error e : Except PyErr α)) rng
          = ⟨.commFault, 10, (List.range 10).map rng⟩)
    ∧ (retryWrapped op = false →
        performRemote op (fun _ => (.error e : Except PyErr α)) rng
          = ⟨.raised e, 1, []⟩) := by
  refine ⟨by cases op <;> rfl, ?_, ?_⟩
  · intro hw
    rw [performRemote, hw, if_pos rfl, retry,
      retryAux_all_transient _ rng (fun _ => ⟨e, rfl, he⟩) 10 0]
    simp
  · intro hw
    rw [performRemote, hw]
    simp

/-- Witness for the amended C7: a persistent Rucio fault in `add_replicas`
is retried 10 times; the same fault in `close` propagates at once. -/
theorem c7_all_calls_retried_amended_witness :
    performRemote RemoteOp.addReplicas
        (fun _ => (Except.error (PyErr.rucioException "conn") : Except PyErr Unit))
        (fun _ => (5 : ℚ))
      = ⟨.commFault, 10, (List.range 10).map (fun _ => (5 : ℚ))⟩
    ∧ performRemote RemoteOp.closeDataset
        (fun _ => (Except.error (PyErr.rucioException "conn") : Except PyErr Unit))
        (fun _ => (5 : ℚ))
      = ⟨.raised (PyErr.rucioException "conn"), 1, []⟩ :=
  ⟨(c7_all_calls_retried_amended RemoteOp.addReplicas Unit
      (PyErr.rucioException "conn") (fun _ => (5 : ℚ)) rfl).2.1 rfl,
   (c7_all_calls_retried_amended RemoteOp.closeDataset Unit
      (PyErr.rucioException "conn") (fun _ => (5 : ℚ)) rfl).2.2 rfl⟩

/-! ### The registration pipeline (module level, lines 185-361)

The script body is embedded as a fold over the per-dataset-type artifact
groups.  Rucio's server state is a `TargetState` of finite sets; each remote
call also appends an `Event` so that dry-run and retry-wrapping claims can be
read off the trace.  `config.repo`, `collection`, `scope`, `rse` and the log
level only name external endpoints and are not part of the state. -/

/-- The configuration fields that influence the pipeline's behaviour. -/
structure Config where
  dry_run : Bool
  njobs : Option Int
  jobnum : Option Int

/-- The shard filter of lines 228-229:
`if config.njobs and j % config.njobs != config.jobnum: continue`.
Python truthiness skips the test for `None` and `0`; comparing
`j % njobs != jobnum` against an unset (`None`) `jobnum` is always true;
`%` is Python's floor modulo. -/
def shardSkip (njobs jobnum : Option Int) (j : Nat) : Bool :=
  match njobs with
  | none => false
  | some k =>
    if k = 0 then false
    else
      match jobnum with
      | none => true
      | some m => decide (Int.fmod (j : Int) k ≠ m)

/-- The per-file Rucio DID dictionary of lines 275-281 (minus the constant
scope). -/
structure Did where
  name : String
  bytes : Nat
  md5 : List Nat
  adler32 : Nat
deriving DecidableEq, Repr

/-- The remote calls and log lines the pipeline emits, in order. -/
inductive Event where
  | logCreate (path : String)
  | getDid (path : String)
  | addDataset (path : String)
  | listReplicas (names : List String)
  | addReplicas (names : List String)
  | listContent (path : String)
  | addFiles (path : String) (names : List String)
  | closeDataset (path : String)
  | setMetadata (path : String)
deriving DecidableEq, Repr

/-- The Rucio server state the script can observe and mutate: existing
dataset DIDs, file replicas at the RSE, (dataset, file) membership pairs,
closed datasets, and datasets tagged with the archival hint. -/
structure TargetState where
  datasets : Finset String
  replicas : Finset String
  members : Finset (String × String)
  closed : Finset String
  tagged : Finset String
deriving DecidableEq

/-- The full state of one pipeline process: the remote state plus the
script's local variables `files`, `rucio_datasets` (as `pend`), `n_files`,
`n_bytes`, `dsmap`, and the emitted event trace. -/
structure RunState where
  target : TargetState
  files : List Did
  pend : List (String × List Did)
  nFiles : List (String × Nat)
  nBytes : List (String × Nat)
  dsmap : DsMap
  events : List Event
deriving DecidableEq

/-- Python dict lookup with a default (used for dict entries the script has
itself initialised). -/
def assocGetD (l : List (String × α)) (k : String) (d : α) : α :=
  match l with
  | [] => d
  | (k', v) :: rest => if k = k' then v else assocGetD rest k d

/-- Python dict membership test. -/
def assocHas (l : List (String × α)) (k : String) : Bool :=
  match l with
  | [] => false
  | (k', _) :: rest => if k = k' then true else assocHas rest k

/-- Python dict update of an existing key (keys keep insertion order). -/
def assocSet (l : List (String × α)) (k : String) (v : α) : List (String × α) :=
  match l with
  | [] => []
  | (k', w) :: rest => if k = k' then (k', v) :: rest else (k', w) :: assocSet rest k v

/-- Lines 286-298: query the replicas already present among the batch at the
RSE, subtract them, and bulk-insert the remainder (the `files = []` reset of
line 299 is separate because the terminal flush of lines 327-335 has none). -/
def replicaFlushEffect (st : RunState) : RunState :=
  let names := st.files.map Did.name
  let needed := st.files.filter (fun d => decide (d.name ∉ st.target.replicas))
  { st with
    target := { st.target with
      replicas := st.target.replicas ∪ (needed.map Did.name).toFinset }
    events := st.events
      ++ [.listReplicas names, .addReplicas (needed.map Did.name)] }

/-- Lines 285-299: flush the replica batch once it has reached 500 entries,
skipping the remote calls in a dry run, and reset it. -/
def stepFiles (cfg : Config) (st : RunState) : RunState :=
  if st.files.length ≥ 500 then
    let st1 := if cfg.dry_run then st else replicaFlushEffect st
    { st1 with files := [] }
  else st

/-- Lines 306-323: query the names already in the dataset, subtract them, and
bulk-insert the remaining members. -/
def memberFlushEffect (st : RunState) (path : String) : RunState :=
  let dids := assocGetD st.pend path []
  let needed := dids.filter (fun d => decide ((path, d.name) ∉ st.target.members))
  { st with
    target := { st.target with
      members := st.target.members ∪ (needed.map (fun d => (path, d.name))).toFinset }
    events := st.events
      ++ [.listContent path, .addFiles path (needed.map Did.name)] }

/-- Lines 305-324: flush one dataset's pending members once they reach 500,
skipping the remote calls in a dry run, and clear the pending list. -/
def stepPend (cfg : Config) (st : RunState) (path : String) : RunState :=
  if (assocGetD st.pend path []).length ≥ 500 then
    let st1 := if cfg.dry_run then st else memberFlushEffect st path
    { st1 with pend := assocSet st1.pend path [] }
  else st

/-- Lines 240-259: on first local encounter of a dataset, probe it with
`get_did` and create it when absent (the creation log of line 247 sits inside
the `DataIdentifierNotFound` handler, and in a dry run `get_did` is never
called, so no exception arrives and nothing is probed, logged or created);
then initialise the local dict entries.  The `DataIdentifierAlreadyExists`
swallow of line 255 needs no separate embedding: creation of an existing
dataset leaves the set of datasets unchanged either way. -/
def ensureDataset (cfg : Config) (st : RunState) (path : String) : RunState :=
  if assocHas st.pend path then st
  else
    let st1 :=
      if cfg.dry_run then st
      else if path ∈ st.target.datasets then
        { st with events := st.events ++ [.getDid path] }
      else
        { st with
          target := { st.target with datasets := insert path st.target.datasets }
          events := st.events ++ [.getDid path, .logCreate path, .addDataset path] }
    { st1 with
      pend := st1.pend ++ [(path, [])]
      nFiles := st1.nFiles ++ [(path, 0)]
      nBytes := st1.nBytes ++ [(path, 0)] }

/-- Lines 261-272: the checksum block; in a dry run the read loop is skipped,
so the state stays at its line 262-264 initialisation. -/
def checksumFor (cfg : Config) (a : Artifact) : ChecksumRecord :=
  if cfg.dry_run then checksumInit else checksumContent chunkBytes a.content

/-- Lines 274-281: the DID dictionary for one artifact. -/
def didFor (cfg : Config) (a : Artifact) : Did :=
  let r := checksumFor cfg a
  ⟨a.relPath, r.size, r.md5Absorbed, r.adler⟩

/-- Lines 227-324: the body of the per-reference loop, for the reference at
enumeration index `j`: shard filter, root filter, classification, dataset
setup, checksum, replica batching, counters and member batching. -/
def processRef (cfg : Config) (st : RunState) (j : Nat) (a : Artifact) : RunState :=
  if shardSkip cfg.njobs cfg.jobnum j then st
  else if !a.inRoot then st
  else
    let pm := map_to_rucio st.dsmap a
    let path := pm.1
    let st2 := { st with dsmap := pm.2 }
    let st3 := ensureDataset cfg st2 path
    let did := didFor cfg a
    let st4 := stepFiles cfg { st3 with files := st3.files ++ [did] }
    let st5 := { st4 with
      nFiles := assocSet st4.nFiles path (assocGetD st4.nFiles path 0 + 1)
      nBytes := assocSet st4.nBytes path (assocGetD st4.nBytes path 0 + did.bytes)
      pend := assocSet st4.pend path (assocGetD st4.pend path [] ++ [did]) }
    stepPend cfg st5 path

/-- Lines 205-324: one dataset-type iteration: skip the separately ingested
types of lines 207-212, reset the replica batch (line 216, which silently
drops any unflushed remainder of the previous type), then process the sorted
references in enumeration order. -/
def processGroup (cfg : Config) (st : RunState) (g : String × List Artifact) : RunState :=
  if g.1 == "raw" || g.1 == "guider_raw" || pyStartsWith g.1 "the_monster_" then st
  else
    (g.2.enum).foldl (fun s ja => processRef cfg s ja.1 ja.2) { st with files := [] }

/-- The guard of line 356: `config.njobs is not None and config.njobs <= 1`. -/
def sealGuard (njobs : Option Int) : Bool :=
  match njobs with
  | none => false
  | some k => decide (k ≤ 1)

/-- Lines 337-361 for one entry of `rucio_datasets`: flush the remaining
members if any (dedup again, dry run skips the calls; the list is *not*
cleared here), then, only under the line 356 guard, close the dataset and
set the archival tag.  In the source the close and tag calls are not guarded
by `--dry_run` at all (in a dry run `did_client` was never constructed, so
reaching them fails; they are embedded as issued). -/
def finalizeOne (cfg : Config) (st : RunState) (pd : String × List Did) : RunState :=
  let st1 :=
    if pd.2.isEmpty then st
    else if cfg.dry_run then st
    else
      let needed := pd.2.filter (fun d => decide ((pd.1, d.name) ∉ st.target.members))
      { st with
        target := { st.target with
          members := st.target.members ∪ (needed.map (fun d => (pd.1, d.name))).toFinset }
        events := st.events
          ++ [.listContent pd.1, .addFiles pd.1 (needed.map Did.name)] }
  if sealGuard cfg.njobs then
    { st1 with
      target := { st1.target with
        closed := insert pd.1 st1.target.closed
        tagged := insert pd.1 st1.target.tagged }
      events := st1.events ++ [.closeDataset pd.1, .setMetadata pd.1] }
  else st1

/-- The local state at interpreter start (lines 198-200, empty caches). -/
def initialRunState (t0 : TargetState) : RunState :=
  ⟨t0, [], [], [], [], [], []⟩

/-- The whole module-level pipeline (lines 202-361): the dataset-type loop,
the terminal replica flush of lines 327-335 (which leaves the drained
`files` list in place), and the finalization loop over `rucio_datasets`. -/
def runPipeline (cfg : Config) (gs : List (String × List Artifact))
    (t0 : TargetState) : RunState :=
  let st := gs.foldl (processGroup cfg) (initialRunState t0)
  let st1 :=
    if st.files.isEmpty then st
    else if cfg.dry_run then st else replicaFlushEffect st
  st1.pend.foldl (finalizeOne cfg) st1

/-! ### Idempotence machinery

Every target mutation the pipeline performs is of the form
`t ↦ t ∪ δ` where — after absorbing the dedup subtraction into the union —
`δ` depends only on the script's local state, never on the target.  We track
a run from target `u ∪ t` against a run from target `t` with identical
locals; the targets stay related by `∪ u` and the locals stay equal (the
event trace may differ, since the probes observe the target). -/

/-- The empty Rucio state. -/
def emptyTarget : TargetState := ⟨∅, ∅, ∅, ∅, ∅⟩

/-- Componentwise union of target states. -/
def TargetState.union (u t : TargetState) : TargetState :=
  ⟨u.datasets ∪ t.datasets, u.replicas ∪ t.replicas, u.members ∪ t.members,
   u.closed ∪ t.closed, u.tagged ∪ t.tagged⟩

theorem TargetState.union_emptyTarget (u : TargetState) : u.union emptyTarget = u := by
  simp [TargetState.union, emptyTarget]

theorem TargetState.union_absorb (a b : TargetState) : (a.union b).union b = a.union b := by
  simp [TargetState.union, Finset.union_assoc]

/-- Subtracting the already-present names before the union does not change
the union: the dedup filter of lines 291-292 is absorbed. -/
theorem union_filter_names (s : Finset String) (l : List Did) :
    s ∪ ((l.filter (fun d => decide (d.name ∉ s))).map Did.name).toFinset
      = s ∪ (l.map Did.name).toFinset := by
  ext x
  simp only [Finset.mem_union, List.mem_toFinset, List.mem_map, List.mem_filter,
    decide_eq_true_eq]
  constructor
  · rintro (hx | ⟨d, ⟨hd, _⟩, rfl⟩)
    exacts [Or.inl hx, Or.inr ⟨d, hd, rfl⟩]
  · rintro (hx | ⟨d, hd, rfl⟩)
    · exact Or.inl hx
    · by_cases hm : d.name ∈ s
      · exact Or.inl hm
      · exact Or.inr ⟨d, ⟨hd, hm⟩, rfl⟩

/-- The member dedup of lines 310-315 is likewise absorbed by the union. -/
theorem union_filter_pairs (s : Finset (String × String)) (path : String) (l : List Did) :
    s ∪ ((l.filter (fun d => decide ((path, d.name) ∉ s))).map
        (fun d => (path, d.name))).toFinset
      = s ∪ (l.map (fun d => (path, d.name))).toFinset := by
  ext x
  simp only [Finset.mem_union, List.mem_toFinset, List.mem_map, List.mem_filter,
    decide_eq_true_eq]
  constructor
  · rintro (hx | ⟨d, ⟨hd, _⟩, rfl⟩)
    exacts [Or.inl hx, Or.inr ⟨d, hd, rfl⟩]
  · rintro (hx | ⟨d, hd, rfl⟩)
    · exact Or.inl hx
    · by_cases hm : (path, d.name) ∈ s
      · exact Or.inl hm
      · exact Or.inr ⟨d, ⟨hd, hm⟩, rfl⟩

/-- The simulation relation: targets differ by `∪ u`, all locals except the
event trace coincide. -/
def SplitInv (u : TargetState) (s₁ s₂ : RunState) : Prop :=
  s₁.target = u.union s₂.target ∧ s₁.files = s₂.files ∧ s₁.pend = s₂.pend
  ∧ s₁.nFiles = s₂.nFiles ∧ s₁.nBytes = s₂.nBytes ∧ s₁.dsmap = s₂.dsmap

/-! ### Characterizations of the pipeline steps

Each mutating step is rewritten into the shape "locals updated by a function
of locals; target components grown by a union that depends only on locals".
The existentially quantified `evs` hides the event-trace difference between
the probe branches. -/

theorem ensureDataset_id (cfg : Config) (st : RunState) (path : String)
    (hh : assocHas st.pend path = true) :
    ensureDataset cfg st path = st := by
  rw [ensureDataset, if_pos hh]

theorem ensureDataset_char_dry (cfg : Config) (st : RunState) (path : String)
    (hd : cfg.dry_run = true) (hh : ¬ assocHas st.pend path = true) :
    ensureDataset cfg st path
      = { st with
          pend := st.pend ++ [(path, [])]
          nFiles := st.nFiles ++ [(path, 0)]
          nBytes := st.nBytes ++ [(path, 0)] } := by
  rw [ensureDataset, if_neg hh]
  simp [hd]

theorem ensureDataset_char_wet (cfg : Config) (st : RunState) (path : String)
    (hd : cfg.dry_run = false) (hh : ¬ assocHas st.pend path = true) :
    ∃ evs, ensureDataset cfg st path
      = { st with
          target := { st.target with
            datasets := st.target.datasets ∪ {path} }
          pend := st.pend ++ [(path, [])]
          nFiles := st.nFiles ++ [(path, 0)]
          nBytes := st.nBytes ++ [(path, 0)]
          events := st.events ++ evs } := by
  rw [ensureDataset, if_neg hh]
  by_cases hmem : path ∈ st.target.datasets
  · refine ⟨[.getDid path], ?_⟩
    have hds : st.target.datasets ∪ {path} = st.target.datasets :=
      Finset.union_eq_left.mpr (Finset.singleton_subset_iff.mpr hmem)
    simp [hd, hmem, hds]
  · refine ⟨[.getDid path, .logCreate path, .addDataset path], ?_⟩
    have hds : insert path st.target.datasets = st.target.datasets ∪ {path} := by
      rw [Finset.insert_eq, Finset.union_comm]
    simp [hd, hmem, hds]

theorem stepFiles_id (cfg : Config) (st : RunState)
    (hl : ¬ st.files.length ≥ 500) :
    stepFiles cfg st = st := by
  rw [stepFiles, if_neg hl]

theorem stepFiles_char_dry (cfg : Config) (st : RunState)
    (hd : cfg.dry_run = true) (hl : st.files.length ≥ 500) :
    stepFiles cfg st = { st with files := [] } := by
  rw [stepFiles, if_pos hl]
  simp [hd]

theorem stepFiles_char_wet (cfg : Config) (st : RunState)
    (hd : cfg.dry_run = false) (hl : st.files.length ≥ 500) :
    ∃ evs, stepFiles cfg st
      = { st with
          target := { st.target with
            replicas := st.target.replicas ∪ (st.files.map Did.name).toFinset }
          files := []
          events := st.events ++ evs } := by
  rw [stepFiles, if_pos hl]
  refine ⟨[.listReplicas (st.files.map Did.name),
    .addReplicas ((st.files.filter
      (fun d => decide (d.name ∉ st.target.replicas))).map Did.name)], ?_⟩
  simp only [hd, Bool.false_eq_true, if_false, replicaFlushEffect]
  rw [union_filter_names]

theorem stepPend_id (cfg : Config) (st : RunState) (path : String)
    (hl : ¬ (assocGetD st.pend path []).length ≥ 500) :
    stepPend cfg st path = st := by
  rw [stepPend, if_neg hl]

theorem stepPend_char_dry (cfg : Config) (st : RunState) (path : String)
    (hd : cfg.dry_run = true) (hl : (assocGetD st.pend path []).length ≥ 500) :
    stepPend cfg st path = { st with pend := assocSet st.pend path [] } := by
  rw [stepPend, if_pos hl]
  simp [hd]

theorem stepPend_char_wet (cfg : Config) (st : RunState) (path : String)
    (hd : cfg.dry_run = false) (hl : (assocGetD st.pend path []).length ≥ 500) :
    ∃ evs, stepPend cfg st path
      = { st with
          target := { st.target with
            members := st.target.members
              ∪ ((assocGetD st.pend path []).map (fun d => (path, d.name))).toFinset }
          pend := assocSet st.pend path []
          events := st.events ++ evs } := by
  rw [stepPend, if_pos hl]
  refine ⟨[.listContent path,
    .addFiles path (((assocGetD st.pend path []).filter
      (fun d => decide ((path, d.name) ∉ st.target.members))).map Did.name)], ?_⟩
  simp only [hd, Bool.false_eq_true, if_false, memberFlushEffect]
  rw [union_filter_pairs]

theorem finalizeOne_char (cfg : Config) (st : RunState) (pd : String × List Did)
    (hd : cfg.dry_run = false) :
    ∃ evs, finalizeOne cfg st pd
      = { st with
          target := { st.target with
            members := st.target.members
              ∪ (pd.2.map (fun d => (pd.1, d.name))).toFinset
            closed := if sealGuard cfg.njobs then insert pd.1 st.target.closed
              else st.target.closed
            tagged := if sealGuard cfg.njobs then insert pd.1 st.target.tagged
              else st.target.tagged }
          events := st.events ++ evs } := by
  rw [finalizeOne]
  by_cases he : pd.2.isEmpty
  · have h2 : pd.2 = [] := List.isEmpty_iff.mp he
    refine ⟨if sealGuard cfg.njobs then [.closeDataset pd.1, .setMetadata pd.1]
      else [], ?_⟩
    rw [if_pos he]
    cases hs : sealGuard cfg.njobs <;> simp [h2, hs]
  · refine ⟨[.listContent pd.1,
      .addFiles pd.1 ((pd.2.filter
        (fun d => decide ((pd.1, d.name) ∉ st.target.members))).map Did.name)]
      ++ (if sealGuard cfg.njobs then [.closeDataset pd.1, .setMetadata pd.1]
        else []), ?_⟩
    rw [if_neg he]
    simp only [hd, Bool.false_eq_true, if_false]
    rw [union_filter_pairs]
    cases hs : sealGuard cfg.njobs <;> simp [hs]


theorem splitInv_ensureDataset (cfg : Config) (u : TargetState) (s₁ s₂ : RunState)
    (path : String) (h : SplitInv u s₁ s₂) :
    SplitInv u (ensureDataset cfg s₁ path) (ensureDataset cfg s₂ path) := by
  obtain ⟨ht, hf, hp, hnf, hnb, hm⟩ := h
  by_cases hh : assocHas s₂.pend path = true
  · rw [ensureDataset_id cfg s₁ path (by rw [hp]; exact hh),
      ensureDataset_id cfg s₂ path hh]
    exact ⟨ht, hf, hp, hnf, hnb, hm⟩
  · have hh1 : ¬ assocHas s₁.pend path = true := by rw [hp]; exact hh
    cases hd : cfg.dry_run with
    | true =>
      rw [ensureDataset_char_dry cfg s₁ path hd hh1,
        ensureDataset_char_dry cfg s₂ path hd hh]
      exact ⟨ht, hf, by rw [hp], by rw [hnf], by rw [hnb], hm⟩
    | false =>
      obtain ⟨e1, he1⟩ := ensureDataset_char_wet cfg s₁ path hd hh1
      obtain ⟨e2, he2⟩ := ensureDataset_char_wet cfg s₂ path hd hh
      rw [he1, he2]
      refine ⟨?_, hf, by rw [hp], by rw [hnf], by rw [hnb], hm⟩
      rw [ht]
      simp [TargetState.union, Finset.union_assoc]

theorem splitInv_stepFiles (cfg : Config) (u : TargetState) (s₁ s₂ : RunState)
    (h : SplitInv u s₁ s₂) :
    SplitInv u (stepFiles cfg s₁) (stepFiles cfg s₂) := by
  obtain ⟨ht, hf, hp, hnf, hnb, hm⟩ := h
  by_cases hl : s₂.files.length ≥ 500
  · have hl1 : s₁.files.length ≥ 500 := by rw [hf]; exact hl
    cases hd : cfg.dry_run with
    | true =>
      rw [stepFiles_char_dry cfg s₁ hd hl1, stepFiles_char_dry cfg s₂ hd hl]
      exact ⟨ht, rfl, hp, hnf, hnb, hm⟩
    | false =>
      obtain ⟨e1, he1⟩ := stepFiles_char_wet cfg s₁ hd hl1
      obtain ⟨e2, he2⟩ := stepFiles_char_wet cfg s₂ hd hl
      rw [he1, he2]
      refine ⟨?_, rfl, hp, hnf, hnb, hm⟩
      rw [ht, hf]
      simp [TargetState.union, Finset.union_assoc]
  · rw [stepFiles_id cfg s₁ (by rw [hf]; exact hl), stepFiles_id cfg s₂ hl]
    exact ⟨ht, hf, hp, hnf, hnb, hm⟩

theorem splitInv_stepPend (cfg : Config) (u : TargetState) (s₁ s₂ : RunState)
    (path : String) (h : SplitInv u s₁ s₂) :
    SplitInv u (stepPend cfg s₁ path) (stepPend cfg s₂ path) := by
  obtain ⟨ht, hf, hp, hnf, hnb, hm⟩ := h
  by_cases hl : (assocGetD s₂.pend path []).length ≥ 500
  · have hl1 : (assocGetD s₁.pend path []).length ≥ 500 := by rw [hp]; exact hl
    cases hd : cfg.dry_run with
    | true =>
      rw [stepPend_char_dry cfg s₁ path hd hl1, stepPend_char_dry cfg s₂ path hd hl]
      exact ⟨ht, hf, by rw [hp], hnf, hnb, hm⟩
    | false =>
      obtain ⟨e1, he1⟩ := stepPend_char_wet cfg s₁ path hd hl1
      obtain ⟨e2, he2⟩ := stepPend_char_wet cfg s₂ path hd hl
      rw [he1, he2]
      refine ⟨?_, hf, by rw [hp], hnf, hnb, hm⟩
      rw [ht, hp]
      simp [TargetState.union, Finset.union_assoc]
  · rw [stepPend_id cfg s₁ path (by rw [hp]; exact hl), stepPend_id cfg s₂ path hl]
    exact ⟨ht, hf, hp, hnf, hnb, hm⟩

theorem splitInv_processRef (cfg : Config) (u : TargetState) (s₁ s₂ : RunState)
    (j : Nat) (a : Artifact) (h : SplitInv u s₁ s₂) :
    SplitInv u (processRef cfg s₁ j a) (processRef cfg s₂ j a) := by
  obtain ⟨ht, hf, hp, hnf, hnb, hm⟩ := h
  unfold processRef
  by_cases hs : shardSkip cfg.njobs cfg.jobnum j = true
  · rw [if_pos hs, if_pos hs]
    exact ⟨ht, hf, hp, hnf, hnb, hm⟩
  · rw [if_neg hs, if_neg hs]
    by_cases hroot : (!a.inRoot) = true
    · rw [if_pos hroot, if_pos hroot]
      exact ⟨ht, hf, hp, hnf, hnb, hm⟩
    · rw [if_neg hroot, if_neg hroot]
      have hpm : map_to_rucio s₁.dsmap a = map_to_rucio s₂.dsmap a := by rw [hm]
      rw [hpm]
      have h2 : SplitInv u { s₁ with dsmap := (map_to_rucio s₂.dsmap a).2 }
          { s₂ with dsmap := (map_to_rucio s₂.dsmap a).2 } :=
        ⟨ht, hf, hp, hnf, hnb, rfl⟩
      have h3 := splitInv_ensureDataset cfg u _ _ (map_to_rucio s₂.dsmap a).1 h2
      obtain ⟨g1, g2, g3, g4, g5, g6⟩ := h3
      have h4 := splitInv_stepFiles cfg u
        { ensureDataset cfg { s₁ with dsmap := (map_to_rucio s₂.dsmap a).2 }
            (map_to_rucio s₂.dsmap a).1 with
          files := (ensureDataset cfg { s₁ with dsmap := (map_to_rucio s₂.dsmap a).2 }
            (map_to_rucio s₂.dsmap a).1).files ++ [didFor cfg a] }
        { ensureDataset cfg { s₂ with dsmap := (map_to_rucio s₂.dsmap a).2 }
            (map_to_rucio s₂.dsmap a).1 with
          files := (ensureDataset cfg { s₂ with dsmap := (map_to_rucio s₂.dsmap a).2 }
            (map_to_rucio s₂.dsmap a).1).files ++ [didFor cfg a] }
        ⟨g1, by rw [g2], g3, g4, g5, g6⟩
      obtain ⟨k1, k2, k3, k4, k5, k6⟩ := h4
      exact splitInv_stepPend cfg u _ _ (map_to_rucio s₂.dsmap a).1
        ⟨k1, k2, by rw [k3], by rw [k4], by rw [k5], k6⟩

theorem finalizeOne_char_dry (cfg : Config) (st : RunState) (pd : String × List Did)
    (hd : cfg.dry_run = true) :
    ∃ evs, finalizeOne cfg st pd
      = { st with
          target := { st.target with
            closed := if sealGuard cfg.njobs then insert pd.1 st.target.closed
              else st.target.closed
            tagged := if sealGuard cfg.njobs then insert pd.1 st.target.tagged
              else st.target.tagged }
          events := st.events ++ evs } := by
  rw [finalizeOne]
  refine ⟨if sealGuard cfg.njobs then [.closeDataset pd.1, .setMetadata pd.1]
    else [], ?_⟩
  by_cases he : pd.2.isEmpty
  · rw [if_pos he]
    cases hs : sealGuard cfg.njobs <;> simp [hs]
  · rw [if_neg he]
    simp only [hd, if_true]
    cases hs : sealGuard cfg.njobs <;> simp [hs]

theorem splitInv_replicaFlushEffect (u : TargetState) (s₁ s₂ : RunState)
    (h : SplitInv u s₁ s₂) :
    SplitInv u (replicaFlushEffect s₁) (replicaFlushEffect s₂) := by
  obtain ⟨ht, hf, hp, hnf, hnb, hm⟩ := h
  unfold replicaFlushEffect
  dsimp only
  refine ⟨?_, hf, hp, hnf, hnb, hm⟩
  rw [union_filter_names, union_filter_names, ht, hf]
  simp [TargetState.union, Finset.union_assoc]

theorem splitInv_finalizeOne (cfg : Config) (u : TargetState) (s₁ s₂ : RunState)
    (pd : String × List Did) (h : SplitInv u s₁ s₂) :
    SplitInv u (finalizeOne cfg s₁ pd) (finalizeOne cfg s₂ pd) := by
  obtain ⟨ht, hf, hp, hnf, hnb, hm⟩ := h
  cases hd : cfg.dry_run with
  | true =>
    obtain ⟨e1, he1⟩ := finalizeOne_char_dry cfg s₁ pd hd
    obtain ⟨e2, he2⟩ := finalizeOne_char_dry cfg s₂ pd hd
    rw [he1, he2]
    refine ⟨?_, hf, hp, hnf, hnb, hm⟩
    rw [ht]
    cases hs : sealGuard cfg.njobs <;>
      simp [TargetState.union, Finset.union_insert]
  | false =>
    obtain ⟨e1, he1⟩ := finalizeOne_char cfg s₁ pd hd
    obtain ⟨e2, he2⟩ := finalizeOne_char cfg s₂ pd hd
    rw [he1, he2]
    refine ⟨?_, hf, hp, hnf, hnb, hm⟩
    rw [ht]
    cases hs : sealGuard cfg.njobs <;>
      simp [TargetState.union, Finset.union_insert, Finset.union_assoc]

theorem splitInv_foldl {β : Type} (u : TargetState) (f : RunState → β → RunState)
    (hstep : ∀ (x : β) (t₁ t₂ : RunState), SplitInv u t₁ t₂ → SplitInv u (f t₁ x) (f t₂ x))
    (l : List β) (s₁ s₂ : RunState) (h : SplitInv u s₁ s₂) :
    SplitInv u (l.foldl f s₁) (l.foldl f s₂) := by
  induction l generalizing s₁ s₂ with
  | nil => exact h
  | cons x rest ih => exact ih _ _ (hstep x s₁ s₂ h)

theorem splitInv_processGroup (cfg : Config) (u : TargetState) (s₁ s₂ : RunState)
    (g : String × List Artifact) (h : SplitInv u s₁ s₂) :
    SplitInv u (processGroup cfg s₁ g) (processGroup cfg s₂ g) := by
  obtain ⟨ht, hf, hp, hnf, hnb, hm⟩ := h
  unfold processGroup
  by_cases hsk : (g.1 == "raw" || g.1 == "guider_raw"
      || pyStartsWith g.1 "the_monster_") = true
  · rw [if_pos hsk, if_pos hsk]
    exact ⟨ht, hf, hp, hnf, hnb, hm⟩
  · rw [if_neg hsk, if_neg hsk]
    exact splitInv_foldl u _
      (fun ja t₁ t₂ hh => splitInv_processRef cfg u t₁ t₂ ja.1 ja.2 hh)
      g.2.enum _ _ ⟨ht, rfl, hp, hnf, hnb, hm⟩

/-- The whole pipeline preserves the simulation: running from `u ∪ t` instead
of `t` leaves the final target offset by `∪ u` and all counters, caches and
pending lists identical. -/
theorem splitInv_runPipeline (cfg : Config) (gs : List (String × List Artifact))
    (u : TargetState) (t₂ : TargetState) :
    SplitInv u (runPipeline cfg gs (u.union t₂)) (runPipeline cfg gs t₂) := by
  have h1 := splitInv_foldl u (processGroup cfg)
    (fun g a b hh => splitInv_processGroup cfg u a b g hh) gs
    (initialRunState (u.union t₂)) (initialRunState t₂)
    ⟨rfl, rfl, rfl, rfl, rfl, rfl⟩
  unfold runPipeline
  dsimp only
  obtain ⟨ht, hf, hp, hnf, hnb, hm⟩ := h1
  have h2 : SplitInv u
      (if (gs.foldl (processGroup cfg) (initialRunState (u.union t₂))).files.isEmpty
        then gs.foldl (processGroup cfg) (initialRunState (u.union t₂))
        else if cfg.dry_run
          then gs.foldl (processGroup cfg) (initialRunState (u.union t₂))
          else replicaFlushEffect (gs.foldl (processGroup cfg) (initialRunState (u.union t₂))))
      (if (gs.foldl (processGroup cfg) (initialRunState t₂)).files.isEmpty
        then gs.foldl (processGroup cfg) (initialRunState t₂)
        else if cfg.dry_run
          then gs.foldl (processGroup cfg) (initialRunState t₂)
          else replicaFlushEffect (gs.foldl (processGroup cfg) (initialRunState t₂))) := by
    rw [hf]
    by_cases he : (gs.foldl (processGroup cfg) (initialRunState t₂)).files.isEmpty = true
    · rw [if_pos he, if_pos he]
      exact ⟨ht, hf, hp, hnf, hnb, hm⟩
    · rw [if_neg he, if_neg he]
      cases hd : cfg.dry_run with
      | true =>
        simp only [if_true]
        exact ⟨ht, hf, hp, hnf, hnb, hm⟩
      | false =>
        simp only [Bool.false_eq_true, if_false]
        exact splitInv_replicaFlushEffect u _ _ ⟨ht, hf, hp, hnf, hnb, hm⟩
  obtain ⟨kt, kf, kp, knf, knb, km⟩ := h2
  rw [kp]
  exact splitInv_foldl u (finalizeOne cfg)
    (fun pd t₁ t₂ hh => splitInv_finalizeOne cfg u t₁ t₂ pd hh)
    _ _ _ ⟨kt, kf, kp, knf, knb, km⟩

/-- C1: idempotence.  Running the full pipeline a second time over the same
artifact groups, starting from the target state the first run produced,
leaves the target state exactly as after the first run — no replica, dataset
or member registration is duplicated (each flush subtracts the names already
present before its bulk insert, so re-inserted sets are absorbed) — and
reports the identical per-CatalogPath `(n_files, n_bytes)` counters. -/
theorem c1_pipeline_idempotent (cfg : Config) (gs : List (String × List Artifact))
    (t0 : TargetState) :
    (runPipeline cfg gs (runPipeline cfg gs t0).target).target
        = (runPipeline cfg gs t0).target
    ∧ (runPipeline cfg gs (runPipeline cfg gs t0).target).nFiles
        = (runPipeline cfg gs t0).nFiles
    ∧ (runPipeline cfg gs (runPipeline cfg gs t0).target).nBytes
        = (runPipeline cfg gs t0).nBytes := by
  have hA := splitInv_runPipeline cfg gs t0 emptyTarget
  rw [TargetState.union_emptyTarget] at hA
  have hB := splitInv_runPipeline cfg gs (runPipeline cfg gs t0).target emptyTarget
  rw [TargetState.union_emptyTarget] at hB
  obtain ⟨at1, _, _, anf, anb, _⟩ := hA
  obtain ⟨bt1, _, _, bnf, bnb, _⟩ := hB
  refine ⟨?_, ?_, ?_⟩
  · rw [bt1, at1, TargetState.union_absorb]
  · rw [bnf, anf]
  · rw [bnb, anb]

/-! ### What touches the closed and tagged sets

Only the line 356-361 finalization block closes or tags datasets; the
artifact loop never does. -/

theorem ensureDataset_closed (cfg : Config) (st : RunState) (path : String) :
    (ensureDataset cfg st path).target.closed = st.target.closed
    ∧ (ensureDataset cfg st path).target.tagged = st.target.tagged := by
  by_cases hh : assocHas st.pend path = true
  · rw [ensureDataset_id cfg st path hh]
    exact ⟨rfl, rfl⟩
  · cases hd : cfg.dry_run with
    | true =>
      rw [ensureDataset_char_dry cfg st path hd hh]
      exact ⟨rfl, rfl⟩
    | false =>
      obtain ⟨e, he⟩ := ensureDataset_char_wet cfg st path hd hh
      rw [he]
      exact ⟨rfl, rfl⟩

theorem stepFiles_closed (cfg : Config) (st : RunState) :
    (stepFiles cfg st).target.closed = st.target.closed
    ∧ (stepFiles cfg st).target.tagged = st.target.tagged := by
  by_cases hl : st.files.length ≥ 500
  · cases hd : cfg.dry_run with
    | true =>
      rw [stepFiles_char_dry cfg st hd hl]
      exact ⟨rfl, rfl⟩
    | false =>
      obtain ⟨e, he⟩ := stepFiles_char_wet cfg st hd hl
      rw [he]
      exact ⟨rfl, rfl⟩
  · rw [stepFiles_id cfg st hl]
    exact ⟨rfl, rfl⟩

theorem stepPend_closed (cfg : Config) (st : RunState) (path : String) :
    (stepPend cfg st path).target.closed = st.target.closed
    ∧ (stepPend cfg st path).target.tagged = st.target.tagged := by
  by_cases hl : (assocGetD st.pend path []).length ≥ 500
  · cases hd : cfg.dry_run with
    | true =>
      rw [stepPend_char_dry cfg st path hd hl]
      exact ⟨rfl, rfl⟩
    | false =>
      obtain ⟨e, he⟩ := stepPend_char_wet cfg st path hd hl
      rw [he]
      exact ⟨rfl, rfl⟩
  · rw [stepPend_id cfg st path hl]
    exact ⟨rfl, rfl⟩

theorem processRef_closed (cfg : Config) (st : RunState) (j : Nat) (a : Artifact) :
    (processRef cfg st j a).target.closed = st.target.closed
    ∧ (processRef cfg st j a).target.tagged = st.target.tagged := by
  unfold processRef
  by_cases hs : shardSkip cfg.njobs cfg.jobnum j = true
  · rw [if_pos hs]
    exact ⟨rfl, rfl⟩
  · rw [if_neg hs]
    by_cases hroot : (!a.inRoot) = true
    · rw [if_pos hroot]
      exact ⟨rfl, rfl⟩
    · rw [if_neg hroot]
      dsimp only
      rw [(stepPend_closed _ _ _).1, (stepPend_closed _ _ _).2,
        (stepFiles_closed _ _).1, (stepFiles_closed _ _).2,
        (ensureDataset_closed _ _ _).1, (ensureDataset_closed _ _ _).2]
      exact ⟨rfl, rfl⟩

theorem processGroup_closed (cfg : Config) (st : RunState) (g : String × List Artifact) :
    (processGroup cfg st g).target.closed = st.target.closed
    ∧ (processGroup cfg st g).target.tagged = st.target.tagged := by
  unfold processGroup
  by_cases hsk : (g.1 == "raw" || g.1 == "guider_raw"
      || pyStartsWith g.1 "the_monster_") = true
  · rw [if_pos hsk]
    exact ⟨rfl, rfl⟩
  · rw [if_neg hsk]
    have key : ∀ (l : List (Nat × Artifact)) (s0 : RunState),
        (l.foldl (fun s ja => processRef cfg s ja.1 ja.2) s0).target.closed
          = s0.target.closed
        ∧ (l.foldl (fun s ja => processRef cfg s ja.1 ja.2) s0).target.tagged
          = s0.target.tagged := by
      intro l
      induction l with
      | nil => exact fun s0 => ⟨rfl, rfl⟩
      | cons ja rest ih =>
        intro s0
        rw [List.foldl_cons]
        exact ⟨(ih _).1.trans (processRef_closed cfg s0 ja.1 ja.2).1,
          (ih _).2.trans (processRef_closed cfg s0 ja.1 ja.2).2⟩
    exact ⟨(key g.2.enum _).1, (key g.2.enum _).2⟩

theorem finalizeOne_closed (cfg : Config) (st : RunState) (pd : String × List Did) :
    (finalizeOne cfg st pd).target.closed
      = (if sealGuard cfg.njobs then insert pd.1 st.target.closed else st.target.closed)
    ∧ (finalizeOne cfg st pd).target.tagged
      = (if sealGuard cfg.njobs then insert pd.1 st.target.tagged else st.target.tagged)
    ∧ (finalizeOne cfg st pd).pend = st.pend := by
  cases hd : cfg.dry_run with
  | true =>
    obtain ⟨e, he⟩ := finalizeOne_char_dry cfg st pd hd
    rw [he]
    exact ⟨rfl, rfl, rfl⟩
  | false =>
    obtain ⟨e, he⟩ := finalizeOne_char cfg st pd hd
    rw [he]
    exact ⟨rfl, rfl, rfl⟩

/-- The finalization loop closes and tags exactly the iterated dataset names,
and only when the seal guard holds. -/
theorem finalizeFold_closed (cfg : Config) (l : List (String × List Did)) (st : RunState) :
    (l.foldl (finalizeOne cfg) st).target.closed
      = (if sealGuard cfg.njobs
          then st.target.closed ∪ (l.map Prod.fst).toFinset else st.target.closed)
    ∧ (l.foldl (finalizeOne cfg) st).target.tagged
      = (if sealGuard cfg.njobs
          then st.target.tagged ∪ (l.map Prod.fst).toFinset else st.target.tagged)
    ∧ (l.foldl (finalizeOne cfg) st).pend = st.pend := by
  induction l generalizing st with
  | nil =>
    cases hs : sealGuard cfg.njobs <;> simp
  | cons pd rest ih =>
    rw [List.foldl_cons]
    obtain ⟨i1, i2, i3⟩ := ih (finalizeOne cfg st pd)
    obtain ⟨f1, f2, f3⟩ := finalizeOne_closed cfg st pd
    refine ⟨?_, ?_, i3.trans f3⟩ <;>
      cases hs : sealGuard cfg.njobs <;>
        simp_all [Finset.insert_union, Finset.union_insert]

theorem replicaFlushEffect_closed (st : RunState) :
    (replicaFlushEffect st).target.closed = st.target.closed
    ∧ (replicaFlushEffect st).target.tagged = st.target.tagged
    ∧ (replicaFlushEffect st).pend = st.pend :=
  ⟨rfl, rfl, rfl⟩

/-- C5 (amended): finalization (closing each touched CatalogPath and tagging
it with the archival hint) runs exactly when `njobs` is *present* and at most
1 — `config.njobs is not None and config.njobs <= 1` — so it does run for
`njobs ≤ 1` given on the command line, and does *not* run when `njobs` is
absent or greater than 1. -/
theorem c5_seal_guard_amended (cfg : Config) (gs : List (String × List Artifact))
    (t0 : TargetState) :
    (sealGuard cfg.njobs = false →
      (runPipeline cfg gs t0).target.closed = t0.closed
      ∧ (runPipeline cfg gs t0).target.tagged = t0.tagged)
    ∧ (sealGuard cfg.njobs = true →
      (runPipeline cfg gs t0).target.closed
        = t0.closed ∪ (((runPipeline cfg gs t0).pend).map Prod.fst).toFinset
      ∧ (runPipeline cfg gs t0).target.tagged
        = t0.tagged ∪ (((runPipeline cfg gs t0).pend).map Prod.fst).toFinset)
    ∧ sealGuard none = false
    ∧ (∀ k : Int, k ≤ 1 → sealGuard (some k) = true)
    ∧ (∀ k : Int, 1 < k → sealGuard (some k) = false) := by
  have key : ∀ (l : List (String × List Artifact)) (s0 : RunState),
      (l.foldl (processGroup cfg) s0).target.closed = s0.target.closed
      ∧ (l.foldl (processGroup cfg) s0).target.tagged = s0.target.tagged := by
    intro l
    induction l with
    | nil => exact fun s0 => ⟨rfl, rfl⟩
    | cons g rest ih =>
      intro s0
      rw [List.foldl_cons]
      exact ⟨(ih _).1.trans (processGroup_closed cfg s0 g).1,
        (ih _).2.trans (processGroup_closed cfg s0 g).2⟩
  have hAc : (gs.foldl (processGroup cfg) (initialRunState t0)).target.closed
      = t0.closed := (key gs _).1
  have hAt : (gs.foldl (processGroup cfg) (initialRunState t0)).target.tagged
      = t0.tagged := (key gs _).2
  have hrp : (runPipeline cfg gs t0).target.closed
        = (if sealGuard cfg.njobs
            then t0.closed ∪ (((runPipeline cfg gs t0).pend).map Prod.fst).toFinset
            else t0.closed)
      ∧ (runPipeline cfg gs t0).target.tagged
        = (if sealGuard cfg.njobs
            then t0.tagged ∪ (((runPipeline cfg gs t0).pend).map Prod.fst).toFinset
            else t0.tagged) := by
    unfold runPipeline
    dsimp only
    by_cases hfe : (gs.foldl (processGroup cfg) (initialRunState t0)).files.isEmpty = true
    · rw [if_pos hfe]
      obtain ⟨c1, c2, c3⟩ := finalizeFold_closed cfg
        (gs.foldl (processGroup cfg) (initialRunState t0)).pend
        (gs.foldl (processGroup cfg) (initialRunState t0))
      rw [c1, c2, c3, hAc, hAt]
      exact ⟨rfl, rfl⟩
    · rw [if_neg hfe]
      cases hd : cfg.dry_run with
      | true =>
        simp only [if_true]
        obtain ⟨c1, c2, c3⟩ := finalizeFold_closed cfg
          (gs.foldl (processGroup cfg) (initialRunState t0)).pend
          (gs.foldl (processGroup cfg) (initialRunState t0))
        rw [c1, c2, c3, hAc, hAt]
        exact ⟨rfl, rfl⟩
      | false =>
        simp only [Bool.false_eq_true, if_false]
        obtain ⟨c1, c2, c3⟩ := finalizeFold_closed cfg
          (replicaFlushEffect (gs.foldl (processGroup cfg) (initialRunState t0))).pend
          (replicaFlushEffect (gs.foldl (processGroup cfg) (initialRunState t0)))
        rw [c1, c2, c3, (replicaFlushEffect_closed _).1, (replicaFlushEffect_closed _).2.1,
          (replicaFlushEffect_closed _).2.2, hAc, hAt]
        exact ⟨rfl, rfl⟩
  refine ⟨fun hg => ⟨by simp [hrp.1, hg], by simp [hrp.2, hg]⟩,
    fun hg => ⟨by simp [hrp.1, hg], by simp [hrp.2, hg]⟩, rfl,
    fun k hk => by simp [sealGuard, hk],
    fun k hk => by simp [sealGuard]; omega⟩

/-- C5 counterexample: a single-process run with `njobs` absent (the default
invocation) touches a CatalogPath but seals and tags nothing, although the
claim says finalization executes when `njobs` is absent.  Line 356 requires
`config.njobs is not None`. -/
theorem c5_seal_guard_counterexample :
    ((runPipeline ⟨false, none, none⟩ [("thing", [c3ArtSci])] emptyTarget).pend.map
        Prod.fst = ["Dataset/thing"])
    ∧ (runPipeline ⟨false, none, none⟩
        [("thing", [c3ArtSci])] emptyTarget).target.closed = ∅
    ∧ (runPipeline ⟨false, none, none⟩
        [("thing", [c3ArtSci])] emptyTarget).target.tagged = ∅ :=
  ⟨by decide, by decide, by decide⟩

/-- Witness for the amended C5: with `njobs = 2` nothing is sealed; with
`njobs = 1` the touched paths are exactly the sealed ones. -/
theorem c5_seal_guard_amended_witness :
    ((runPipeline ⟨false, some 2, some 0⟩
        [("thing", [c3ArtSci])] emptyTarget).target.closed = emptyTarget.closed)
    ∧ ((runPipeline ⟨false, some 1, some 0⟩
        [("thing", [c3ArtSci])] emptyTarget).target.closed
      = emptyTarget.closed
        ∪ (((runPipeline ⟨false, some 1, some 0⟩
            [("thing", [c3ArtSci])] emptyTarget).pend).map Prod.fst).toFinset) :=
  ⟨((c5_seal_guard_amended ⟨false, some 2, some 0⟩
      [("thing", [c3ArtSci])] emptyTarget).1 (by decide)).1,
   ((c5_seal_guard_amended ⟨false, some 1, some 0⟩
      [("thing", [c3ArtSci])] emptyTarget).2.1 (by decide)).1⟩

/-- C10: the shard-filter edge case.  With `njobs` set nonzero but `jobnum`
unset, Python's `j % njobs != None` is true for every index, so every
artifact of every dataset type is skipped and the whole pipeline registers
nothing — its final state is the untouched initial state.  With `njobs`
unset or 0 the filter never skips, so the single implicit shard processes
every artifact. -/
theorem c10_shard_filter (k : Int) (hk : k ≠ 0) :
    (∀ j : Nat, shardSkip (some k) none j = true)
    ∧ (∀ (jn : Option Int) (j : Nat), shardSkip none jn j = false
        ∧ shardSkip (some 0) jn j = false)
    ∧ (∀ (dry : Bool) (gs : List (String × List Artifact)) (t0 : TargetState),
        runPipeline ⟨dry, some k, none⟩ gs t0 = initialRunState t0) := by
  have hsk : ∀ j : Nat, shardSkip (some k) none j = true := by
    intro j
    unfold shardSkip
    simp [hk]
  refine ⟨hsk, fun jn j => ⟨rfl, by unfold shardSkip; simp⟩, ?_⟩
  intro dry gs t0
  have href : ∀ (st : RunState) (j : Nat) (a : Artifact),
      processRef ⟨dry, some k, none⟩ st j a = st := by
    intro st j a
    rw [processRef, if_pos (hsk j)]
  have hgrp : ∀ (st : RunState) (g : String × List Artifact), st.files = [] →
      processGroup ⟨dry, some k, none⟩ st g = st := by
    intro st g hf
    unfold processGroup
    by_cases hskg : (g.1 == "raw" || g.1 == "guider_raw"
        || pyStartsWith g.1 "the_monster_") = true
    · rw [if_pos hskg]
    · rw [if_neg hskg]
      have h2 : { st with files := ([] : List Did) } = st := by rw [← hf]
      rw [h2]
      induction g.2.enum with
      | nil => rfl
      | cons ja rest ih =>
        rw [List.foldl_cons, href st ja.1 ja.2]
        exact ih
  have hfold : ∀ (l : List (String × List Artifact)) (st : RunState), st.files = [] →
      l.foldl (processGroup ⟨dry, some k, none⟩) st = st := by
    intro l
    induction l with
    | nil => exact fun st _ => rfl
    | cons g rest ih =>
      intro st h
      rw [List.foldl_cons, hgrp st g h]
      exact ih st h
  unfold runPipeline
  dsimp only
  rw [hfold gs (initialRunState t0) rfl]
  rfl

/-- Witness for C10 at `njobs = 3` with `jobnum` unset. -/
theorem c10_shard_filter_witness :
    shardSkip (some 3) none 7 = true
    ∧ runPipeline ⟨false, some 3, none⟩ [("thing", [c3ArtSci])] emptyTarget
        = initialRunState emptyTarget :=
  ⟨(c10_shard_filter 3 (by decide)).1 7,
   (c10_shard_filter 3 (by decide)).2.2 false [("thing", [c3ArtSci])] emptyTarget⟩

/-! ### Dry-run versus real-run coupling

A dry run takes exactly the same control path as a real run with the same
configuration — batch triggers fire at the same points, the classifier cache
and the `n_files` counters evolve identically — because the dry-run guards
only surround the remote calls and the checksum read loop.  The coupling
tracks the dry state `d` against the wet state `w`: `d`'s observable target
mutations are absent, `d.files` and the per-path pending lists agree with
`w`'s in length (their records differ only in the checksum fields), and
`dsmap`/`n_files` agree exactly. -/

/-- The keys and pending-list lengths of the `rucio_datasets` dict. -/
def pendShape (l : List (String × List Did)) : List (String × Nat) :=
  l.map (fun p => (p.1, p.2.length))

theorem pendShape_append (l : List (String × List Did)) (x : String × List Did) :
    pendShape (l ++ [x]) = pendShape l ++ [(x.1, x.2.length)] := by
  simp [pendShape]

theorem assocHas_of_shape (p₁ p₂ : List (String × List Did))
    (h : pendShape p₁ = pendShape p₂) (k : String) :
    assocHas p₁ k = assocHas p₂ k := by
  induction p₁ generalizing p₂ with
  | nil =>
    cases p₂ with
    | nil => rfl
    | cons b r₂ => simp [pendShape] at h
  | cons a r ih =>
    cases p₂ with
    | nil => simp [pendShape] at h
    | cons b r₂ =>
      obtain ⟨a1, a2⟩ := a
      obtain ⟨b1, b2⟩ := b
      simp only [pendShape, List.map_cons, List.cons.injEq, Prod.mk.injEq] at h
      obtain ⟨⟨hk, _⟩, hrest⟩ := h
      simp only [assocHas, hk]
      by_cases hke : k = b1
      · rw [if_pos hke, if_pos hke]
      · rw [if_neg hke, if_neg hke]
        exact ih r₂ hrest

theorem assocGetD_length_of_shape (p₁ p₂ : List (String × List Did))
    (h : pendShape p₁ = pendShape p₂) (k : String) :
    (assocGetD p₁ k []).length = (assocGetD p₂ k []).length := by
  induction p₁ generalizing p₂ with
  | nil =>
    cases p₂ with
    | nil => rfl
    | cons b r₂ => simp [pendShape] at h
  | cons a r ih =>
    cases p₂ with
    | nil => simp [pendShape] at h
    | cons b r₂ =>
      obtain ⟨a1, a2⟩ := a
      obtain ⟨b1, b2⟩ := b
      simp only [pendShape, List.map_cons, List.cons.injEq, Prod.mk.injEq] at h
      obtain ⟨⟨hk, hl⟩, hrest⟩ := h
      simp only [assocGetD, hk]
      by_cases hke : k = b1
      · rw [if_pos hke, if_pos hke]
        exact hl
      · rw [if_neg hke, if_neg hke]
        exact ih r₂ hrest

theorem assocSet_nil_shape (p₁ p₂ : List (String × List Did))
    (h : pendShape p₁ = pendShape p₂) (k : String) :
    pendShape (assocSet p₁ k []) = pendShape (assocSet p₂ k []) := by
  induction p₁ generalizing p₂ with
  | nil =>
    cases p₂ with
    | nil => rfl
    | cons b r₂ => simp [pendShape] at h
  | cons a r ih =>
    cases p₂ with
    | nil => simp [pendShape] at h
    | cons b r₂ =>
      obtain ⟨a1, a2⟩ := a
      obtain ⟨b1, b2⟩ := b
      simp only [pendShape, List.map_cons, List.cons.injEq, Prod.mk.injEq] at h
      obtain ⟨⟨hk, hl⟩, hrest⟩ := h
      simp only [assocSet, hk]
      by_cases hke : k = b1
      · rw [if_pos hke, if_pos hke]
        simp [pendShape, hrest]
      · rw [if_neg hke, if_neg hke]
        have tail := ih r₂ hrest
        simp only [pendShape, List.map_cons] at tail ⊢
        rw [hl, tail]

theorem assocSet_append_shape (p₁ p₂ : List (String × List Did))
    (h : pendShape p₁ = pendShape p₂) (k : String) (d₁ d₂ : Did) :
    pendShape (assocSet p₁ k (assocGetD p₁ k [] ++ [d₁]))
      = pendShape (assocSet p₂ k (assocGetD p₂ k [] ++ [d₂])) := by
  induction p₁ generalizing p₂ with
  | nil =>
    cases p₂ with
    | nil => rfl
    | cons b r₂ => simp [pendShape] at h
  | cons a r ih =>
    cases p₂ with
    | nil => simp [pendShape] at h
    | cons b r₂ =>
      obtain ⟨a1, a2⟩ := a
      obtain ⟨b1, b2⟩ := b
      simp only [pendShape, List.map_cons, List.cons.injEq, Prod.mk.injEq] at h
      obtain ⟨⟨hk, hl⟩, hrest⟩ := h
      simp only [assocSet, assocGetD, hk]
      by_cases hke : k = b1
      · rw [if_pos hke, if_pos hke, if_pos hke, if_pos hke]
        simp [pendShape, hl, hrest]
      · rw [if_neg hke, if_neg hke, if_neg hke, if_neg hke]
        have tail := ih r₂ hrest
        simp only [pendShape, List.map_cons] at tail ⊢
        rw [hl, tail]

/-- The dry/wet coupling: the dry run has not mutated datasets, replicas or
members; its classifier cache and `n_files` counters equal the wet run's;
its replica batch and pending lists match the wet run's in keys and
lengths. -/
def DryInv (t0 : TargetState) (d w : RunState) : Prop :=
  d.target.datasets = t0.datasets ∧ d.target.replicas = t0.replicas
  ∧ d.target.members = t0.members ∧ d.dsmap = w.dsmap ∧ d.nFiles = w.nFiles
  ∧ d.files.length = w.files.length ∧ pendShape d.pend = pendShape w.pend

theorem dryInv_ensureDataset (njobs jobnum : Option Int) (t0 : TargetState)
    (d w : RunState) (path : String) (h : DryInv t0 d w) :
    DryInv t0 (ensureDataset ⟨true, njobs, jobnum⟩ d path)
      (ensureDataset ⟨false, njobs, jobnum⟩ w path) := by
  obtain ⟨h1, h2, h3, h4, h5, h6, h7⟩ := h
  by_cases hh : assocHas w.pend path = true
  · rw [ensureDataset_id _ d path (by rw [assocHas_of_shape d.pend w.pend h7]; exact hh),
      ensureDataset_id _ w path hh]
    exact ⟨h1, h2, h3, h4, h5, h6, h7⟩
  · have hhd : ¬ assocHas d.pend path = true := by
      rw [assocHas_of_shape d.pend w.pend h7]; exact hh
    rw [ensureDataset_char_dry _ d path rfl hhd]
    obtain ⟨e, he⟩ := ensureDataset_char_wet ⟨false, njobs, jobnum⟩ w path rfl hh
    rw [he]
    refine ⟨h1, h2, h3, h4, by rw [h5], h6, ?_⟩
    rw [pendShape_append, pendShape_append, h7]

theorem dryInv_stepFiles (njobs jobnum : Option Int) (t0 : TargetState)
    (d w : RunState) (h : DryInv t0 d w) :
    DryInv t0 (stepFiles ⟨true, njobs, jobnum⟩ d)
      (stepFiles ⟨false, njobs, jobnum⟩ w) := by
  obtain ⟨h1, h2, h3, h4, h5, h6, h7⟩ := h
  by_cases hl : w.files.length ≥ 500
  · have hld : d.files.length ≥ 500 := by rw [h6]; exact hl
    rw [stepFiles_char_dry _ d rfl hld]
    obtain ⟨e, he⟩ := stepFiles_char_wet ⟨false, njobs, jobnum⟩ w rfl hl
    rw [he]
    exact ⟨h1, h2, h3, h4, h5, rfl, h7⟩
  · rw [stepFiles_id _ d (by rw [h6]; exact hl), stepFiles_id _ w hl]
    exact ⟨h1, h2, h3, h4, h5, h6, h7⟩

theorem dryInv_stepPend (njobs jobnum : Option Int) (t0 : TargetState)
    (d w : RunState) (path : String) (h : DryInv t0 d w) :
    DryInv t0 (stepPend ⟨true, njobs, jobnum⟩ d path)
      (stepPend ⟨false, njobs, jobnum⟩ w path) := by
  obtain ⟨h1, h2, h3, h4, h5, h6, h7⟩ := h
  by_cases hl : (assocGetD w.pend path []).length ≥ 500
  · have hld : (assocGetD d.pend path []).length ≥ 500 := by
      rw [assocGetD_length_of_shape d.pend w.pend h7]; exact hl
    rw [stepPend_char_dry _ d path rfl hld]
    obtain ⟨e, he⟩ := stepPend_char_wet ⟨false, njobs, jobnum⟩ w path rfl hl
    rw [he]
    exact ⟨h1, h2, h3, h4, h5, h6, assocSet_nil_shape d.pend w.pend h7 path⟩
  · rw [stepPend_id _ d path
      (by rw [assocGetD_length_of_shape d.pend w.pend h7]; exact hl),
      stepPend_id _ w path hl]
    exact ⟨h1, h2, h3, h4, h5, h6, h7⟩

theorem dryInv_processRef (njobs jobnum : Option Int) (t0 : TargetState)
    (d w : RunState) (j : Nat) (a : Artifact) (h : DryInv t0 d w) :
    DryInv t0 (processRef ⟨true, njobs, jobnum⟩ d j a)
      (processRef ⟨false, njobs, jobnum⟩ w j a) := by
  obtain ⟨h1, h2, h3, h4, h5, h6, h7⟩ := h
  unfold processRef
  by_cases hs : shardSkip njobs jobnum j = true
  · rw [if_pos hs, if_pos hs]
    exact ⟨h1, h2, h3, h4, h5, h6, h7⟩
  · rw [if_neg hs, if_neg hs]
    by_cases hroot : (!a.inRoot) = true
    · rw [if_pos hroot, if_pos hroot]
      exact ⟨h1, h2, h3, h4, h5, h6, h7⟩
    · rw [if_neg hroot, if_neg hroot]
      have hpm : map_to_rucio d.dsmap a = map_to_rucio w.dsmap a := by rw [h4]
      rw [hpm]
      have hD2 : DryInv t0 { d with dsmap := (map_to_rucio w.dsmap a).2 }
          { w with dsmap := (map_to_rucio w.dsmap a).2 } :=
        ⟨h1, h2, h3, rfl, h5, h6, h7⟩
      have hD3 := dryInv_ensureDataset njobs jobnum t0 _ _
        (map_to_rucio w.dsmap a).1 hD2
      obtain ⟨g1, g2, g3, g4, g5, g6, g7⟩ := hD3
      have hD4 := dryInv_stepFiles njobs jobnum t0
        { ensureDataset ⟨true, njobs, jobnum⟩
            { d with dsmap := (map_to_rucio w.dsmap a).2 }
            (map_to_rucio w.dsmap a).1 with
          files := (ensureDataset ⟨true, njobs, jobnum⟩
            { d with dsmap := (map_to_rucio w.dsmap a).2 }
            (map_to_rucio w.dsmap a).1).files ++ [didFor ⟨true, njobs, jobnum⟩ a] }
        { ensureDataset ⟨false, njobs, jobnum⟩
            { w with dsmap := (map_to_rucio w.dsmap a).2 }
            (map_to_rucio w.dsmap a).1 with
          files := (ensureDataset ⟨false, njobs, jobnum⟩
            { w with dsmap := (map_to_rucio w.dsmap a).2 }
            (map_to_rucio w.dsmap a).1).files ++ [didFor ⟨false, njobs, jobnum⟩ a] }
        ⟨g1, g2, g3, g4, g5, by simp [g6], g7⟩
      obtain ⟨k1, k2, k3, k4, k5, k6, k7⟩ := hD4
      exact dryInv_stepPend njobs jobnum t0 _ _ (map_to_rucio w.dsmap a).1
        ⟨k1, k2, k3, k4, by rw [k5], k6,
          by rw [k5]; exact assocSet_append_shape _ _ k7 _ _ _⟩

theorem dryInv_processGroup (njobs jobnum : Option Int) (t0 : TargetState)
    (d w : RunState) (g : String × List Artifact) (h : DryInv t0 d w) :
    DryInv t0 (processGroup ⟨true, njobs, jobnum⟩ d g)
      (processGroup ⟨false, njobs, jobnum⟩ w g) := by
  obtain ⟨h1, h2, h3, h4, h5, h6, h7⟩ := h
  unfold processGroup
  by_cases hsk : (g.1 == "raw" || g.1 == "guider_raw"
      || pyStartsWith g.1 "the_monster_") = true
  · rw [if_pos hsk, if_pos hsk]
    exact ⟨h1, h2, h3, h4, h5, h6, h7⟩
  · rw [if_neg hsk, if_neg hsk]
    have key : ∀ (l : List (Nat × Artifact)) (d0 w0 : RunState), DryInv t0 d0 w0 →
        DryInv t0
          (l.foldl (fun s ja => processRef ⟨true, njobs, jobnum⟩ s ja.1 ja.2) d0)
          (l.foldl (fun s ja => processRef ⟨false, njobs, jobnum⟩ s ja.1 ja.2) w0) := by
      intro l
      induction l with
      | nil => exact fun d0 w0 hh => hh
      | cons ja rest ih =>
        intro d0 w0 hh
        rw [List.foldl_cons, List.foldl_cons]
        exact ih _ _ (dryInv_processRef njobs jobnum t0 d0 w0 ja.1 ja.2 hh)
    exact key g.2.enum { d with files := [] } { w with files := [] }
      ⟨h1, h2, h3, h4, h5, rfl, h7⟩

theorem finalizeOne_locals (cfg : Config) (st : RunState) (pd : String × List Did) :
    (finalizeOne cfg st pd).dsmap = st.dsmap
    ∧ (finalizeOne cfg st pd).nFiles = st.nFiles := by
  cases hd : cfg.dry_run with
  | true =>
    obtain ⟨e, he⟩ := finalizeOne_char_dry cfg st pd hd
    rw [he]
    exact ⟨rfl, rfl⟩
  | false =>
    obtain ⟨e, he⟩ := finalizeOne_char cfg st pd hd
    rw [he]
    exact ⟨rfl, rfl⟩

theorem finalizeFold_locals (cfg : Config) (l : List (String × List Did))
    (st : RunState) :
    (l.foldl (finalizeOne cfg) st).dsmap = st.dsmap
    ∧ (l.foldl (finalizeOne cfg) st).nFiles = st.nFiles := by
  induction l generalizing st with
  | nil => exact ⟨rfl, rfl⟩
  | cons pd rest ih =>
    rw [List.foldl_cons]
    exact ⟨(ih _).1.trans (finalizeOne_locals cfg st pd).1,
      (ih _).2.trans (finalizeOne_locals cfg st pd).2⟩

theorem finalizeOne_dry_target (njobs jobnum : Option Int) (st : RunState)
    (pd : String × List Did) :
    (finalizeOne ⟨true, njobs, jobnum⟩ st pd).target.datasets = st.target.datasets
    ∧ (finalizeOne ⟨true, njobs, jobnum⟩ st pd).target.replicas = st.target.replicas
    ∧ (finalizeOne ⟨true, njobs, jobnum⟩ st pd).target.members = st.target.members := by
  obtain ⟨e, he⟩ := finalizeOne_char_dry ⟨true, njobs, jobnum⟩ st pd rfl
  rw [he]
  exact ⟨rfl, rfl, rfl⟩

theorem finalizeFold_dry_target (njobs jobnum : Option Int)
    (l : List (String × List Did)) (st : RunState) :
    (l.foldl (finalizeOne ⟨true, njobs, jobnum⟩) st).target.datasets
      = st.target.datasets
    ∧ (l.foldl (finalizeOne ⟨true, njobs, jobnum⟩) st).target.replicas
      = st.target.replicas
    ∧ (l.foldl (finalizeOne ⟨true, njobs, jobnum⟩) st).target.members
      = st.target.members := by
  induction l generalizing st with
  | nil => exact ⟨rfl, rfl, rfl⟩
  | cons pd rest ih =>
    rw [List.foldl_cons]
    exact ⟨(ih _).1.trans (finalizeOne_dry_target njobs jobnum st pd).1,
      (ih _).2.1.trans (finalizeOne_dry_target njobs jobnum st pd).2.1,
      (ih _).2.2.trans (finalizeOne_dry_target njobs jobnum st pd).2.2⟩

/-- C4 (amended): with the dry-run flag set, the artifact loop mutates
nothing at the target — the datasets, replicas and members are exactly as
before the run — while classification still runs exactly as in a real run
(identical classifier cache and identical per-CatalogPath file counts); but
checksumming is *skipped*, every per-artifact record staying at its empty
initialisation, so a dry ChecksumRecord does not equal the real one. -/
theorem c4_dry_run_amended (njobs jobnum : Option Int)
    (gs : List (String × List Artifact)) (t0 : TargetState) :
    (runPipeline ⟨true, njobs, jobnum⟩ gs t0).target.datasets = t0.datasets
    ∧ (runPipeline ⟨true, njobs, jobnum⟩ gs t0).target.replicas = t0.replicas
    ∧ (runPipeline ⟨true, njobs, jobnum⟩ gs t0).target.members = t0.members
    ∧ (runPipeline ⟨true, njobs, jobnum⟩ gs t0).dsmap
        = (runPipeline ⟨false, njobs, jobnum⟩ gs t0).dsmap
    ∧ (runPipeline ⟨true, njobs, jobnum⟩ gs t0).nFiles
        = (runPipeline ⟨false, njobs, jobnum⟩ gs t0).nFiles
    ∧ (∀ a : Artifact, checksumFor ⟨true, njobs, jobnum⟩ a = checksumInit) := by
  have key : ∀ (l : List (String × List Artifact)) (d0 w0 : RunState),
      DryInv t0 d0 w0 →
      DryInv t0 (l.foldl (processGroup ⟨true, njobs, jobnum⟩) d0)
        (l.foldl (processGroup ⟨false, njobs, jobnum⟩) w0) := by
    intro l
    induction l with
    | nil => exact fun d0 w0 hh => hh
    | cons g rest ih =>
      intro d0 w0 hh
      rw [List.foldl_cons, List.foldl_cons]
      exact ih _ _ (dryInv_processGroup njobs jobnum t0 d0 w0 g hh)
  have hA := key gs (initialRunState t0) (initialRunState t0)
    ⟨rfl, rfl, rfl, rfl, rfl, rfl, rfl⟩
  obtain ⟨h1, h2, h3, h4, h5, h6, h7⟩ := hA
  unfold runPipeline
  dsimp only
  have hie : (gs.foldl (processGroup ⟨true, njobs, jobnum⟩)
        (initialRunState t0)).files.isEmpty
      = (gs.foldl (processGroup ⟨false, njobs, jobnum⟩)
        (initialRunState t0)).files.isEmpty := by
    rcases hld : (gs.foldl (processGroup ⟨true, njobs, jobnum⟩)
        (initialRunState t0)).files with _ | ⟨x, xs⟩ <;>
      rcases hlw : (gs.foldl (processGroup ⟨false, njobs, jobnum⟩)
          (initialRunState t0)).files with _ | ⟨y, ys⟩ <;>
        rw [hld, hlw] at h6 <;> simp_all
  by_cases hw : (gs.foldl (processGroup ⟨false, njobs, jobnum⟩)
      (initialRunState t0)).files.isEmpty = true
  · rw [if_pos (hie.trans hw), if_pos hw]
    refine ⟨?_, ?_, ?_, ?_, ?_, fun a => rfl⟩
    · exact (finalizeFold_dry_target njobs jobnum _ _).1.trans h1
    · exact (finalizeFold_dry_target njobs jobnum _ _).2.1.trans h2
    · exact (finalizeFold_dry_target njobs jobnum _ _).2.2.trans h3
    · exact ((finalizeFold_locals _ _ _).1.trans h4).trans
        (finalizeFold_locals _ _ _).1.symm
    · exact ((finalizeFold_locals _ _ _).2.trans h5).trans
        (finalizeFold_locals _ _ _).2.symm
  · rw [if_neg (fun hcon => hw (hie.symm.trans hcon)), if_neg hw]
    rw [if_pos rfl, if_neg (by decide)]
    refine ⟨?_, ?_, ?_, ?_, ?_, fun a => rfl⟩
    · exact (finalizeFold_dry_target njobs jobnum _ _).1.trans h1
    · exact (finalizeFold_dry_target njobs jobnum _ _).2.1.trans h2
    · exact (finalizeFold_dry_target njobs jobnum _ _).2.2.trans h3
    · exact ((finalizeFold_locals _ _ _).1.trans h4).trans
        (finalizeFold_locals ⟨false, njobs, jobnum⟩
          (replicaFlushEffect (gs.foldl (processGroup ⟨false, njobs, jobnum⟩)
            (initialRunState t0))).pend
          (replicaFlushEffect (gs.foldl (processGroup ⟨false, njobs, jobnum⟩)
            (initialRunState t0)))).1.symm
    · exact ((finalizeFold_locals _ _ _).2.trans h5).trans
        (finalizeFold_locals ⟨false, njobs, jobnum⟩
          (replicaFlushEffect (gs.foldl (processGroup ⟨false, njobs, jobnum⟩)
            (initialRunState t0))).pend
          (replicaFlushEffect (gs.foldl (processGroup ⟨false, njobs, jobnum⟩)
            (initialRunState t0)))).2.symm

/-- A one-byte artifact used to refute the dry-run checksum claim. -/
def c4Art : Artifact := ⟨"thing", [], attrsZero, "science-run", "file-f", true, [7]⟩

/-- C4 counterexample: in a dry run the checksum read loop of lines 265-270 is
skipped entirely (the flag's own help text is "Don't checksum or register any
files"), so the dry ChecksumRecord of a one-byte file is the empty-stream
record with size 0 — not the record a non-dry run computes. -/
theorem c4_dry_run_counterexample :
    checksumFor ⟨true, none, none⟩ c4Art = checksumInit
    ∧ checksumFor ⟨false, none, none⟩ c4Art
        = { size := 1, md5Absorbed := [7], adler := 524296 }
    ∧ checksumFor ⟨true, none, none⟩ c4Art ≠ checksumFor ⟨false, none, none⟩ c4Art :=
  ⟨rfl, by decide, by decide⟩

/-! ### The batch accumulator in isolation (lines 284-299, 301-324, 326-355)

For counting flushes the accumulator is modelled on its own: one pending
list fed one record at a time, auto-flushing (and clearing) whenever an
append reaches 500, exactly as both the replica batch and each per-dataset
member batch behave.  The flushed batches are recorded before dedup, since
the bulk-insert call is issued regardless of how many entries the dedup
filter passes through. -/

/-- One `append` followed by the threshold test: reaching 500 flushes the
batch and clears the list (lines 284-285 + 299, 304-305 + 324). -/
def batchStep (s : List Did × List (List Did)) (d : Did) : List Did × List (List Did) :=
  let p := s.1 ++ [d]
  if p.length ≥ 500 then ([], s.2 ++ [p]) else (p, s.2)

/-- Feeding a record stream to one pending list starting empty; returns the
final pending list and the auto-flushed batches in order. -/
def batchRun (l : List Did) : List Did × List (List Did) :=
  l.foldl batchStep ([], [])

/-- The dedup subtraction both flush sites perform before the bulk insert. -/
def flushNeeded (existing : Finset String) (p : List Did) : List Did :=
  p.filter (fun d => decide (d.name ∉ existing))

/-- An in-loop flush (lines 306-324): what is bulk-inserted, and the new
pending list, which is cleared no matter how many entries survived dedup. -/
def flushBatch (existing : Finset String) (p : List Did) : List Did × List Did :=
  (flushNeeded existing p, [])

/-- The terminal flush of lines 337-354: the bulk insert is issued but the
pending list is never reassigned, so it stays in place. -/
def finalFlush (existing : Finset String) (p : List Did) : List Did × List Did :=
  (flushNeeded existing p, p)

/-- Feeding exactly enough records to reach the threshold produces one flush
of the whole segment and an empty pending list. -/
theorem batchFold_fill (seg : List Did) : ∀ (p : List Did) (fs : List (List Did)),
    p.length < 500 → p.length + seg.length = 500 →
    seg.foldl batchStep (p, fs) = ([], fs ++ [p ++ seg]) := by
  induction seg with
  | nil =>
    intro p fs hp hlen
    simp at hlen
    omega
  | cons d rest ih =>
    intro p fs hp hlen
    rw [List.foldl_cons]
    by_cases hfull : (p ++ [d]).length ≥ 500
    · have hrest : rest = [] := by
        rw [← List.length_eq_zero]
        simp only [List.length_append, List.length_cons, List.length_nil] at hfull hlen ⊢
        omega
      subst hrest
      show batchStep (p, fs) d = ([], fs ++ [p ++ [d]])
      rw [batchStep]
      dsimp only
      rw [if_pos hfull]
    · show rest.foldl batchStep (batchStep (p, fs) d) = ([], fs ++ [p ++ d :: rest])
      rw [batchStep]
      dsimp only
      rw [if_neg hfull]
      rw [ih (p ++ [d]) fs (by simp only [List.length_append, List.length_cons, List.length_nil] at hfull ⊢; omega)
        (by simp only [List.length_append, List.length_cons, List.length_nil] at hlen ⊢; omega)]
      simp

/-- Feeding records that stay below the threshold never flushes. -/
theorem batchFold_small (seg : List Did) : ∀ (p : List Did) (fs : List (List Did)),
    p.length + seg.length < 500 →
    seg.foldl batchStep (p, fs) = (p ++ seg, fs) := by
  induction seg with
  | nil =>
    intro p fs h
    simp
  | cons d rest ih =>
    intro p fs h
    rw [List.foldl_cons]
    have hng : ¬ (p ++ [d]).length ≥ 500 := by
      simp only [List.length_append, List.length_cons, List.length_nil] at h ⊢
      omega
    show rest.foldl batchStep (batchStep (p, fs) d) = (p ++ d :: rest, fs)
    rw [batchStep]
    dsimp only
    rw [if_neg hng]
    rw [ih (p ++ [d]) fs (by simp only [List.length_append, List.length_cons, List.length_nil] at h ⊢; omega)]
    simp

/-- C8 (amended): with the threshold of 500, feeding 1200 records routed to
one CatalogPath causes exactly 2 automatic full flushes — the first 500 and
the second 500 records — leaving the last 200 pending for the terminal
flush; each *automatic* flush clears the pending list regardless of how many
entries survived the dedup filter, while the *terminal* flush of
lines 337-354 issues its bulk insert but leaves the drained list in place
(it is never reused before the process exits). -/
theorem c8_batch_flush_amended (l : List Did) (h : l.length = 1200)
    (existing : Finset String) (p : List Did) :
    (batchRun l).2 = [l.take 500, (l.drop 500).take 500]
    ∧ (batchRun l).1 = l.drop 1000
    ∧ (l.drop 1000).length = 200
    ∧ (flushBatch existing p).2 = []
    ∧ (finalFlush existing p).2 = p := by
  have hA : (l.take 500).length = 500 := by
    rw [List.length_take, h]
    decide
  have hB : ((l.drop 500).take 500).length = 500 := by
    rw [List.length_take, List.length_drop, h]
    decide
  have hC : (l.drop 1000).length = 200 := by
    rw [List.length_drop, h]
  have hdecomp : l = l.take 500 ++ ((l.drop 500).take 500 ++ l.drop 1000) := by
    conv_lhs => rw [← List.take_append_drop 500 l]
    congr 1
    conv_lhs => rw [← List.take_append_drop 500 (l.drop 500)]
    rw [List.drop_drop]
  have hrun : batchRun l
      = ((l.drop 1000).foldl batchStep
          (((l.drop 500).take 500).foldl batchStep
            ((l.take 500).foldl batchStep ([], [])))) := by
    rw [batchRun]
    conv_lhs => rw [hdecomp]
    rw [List.foldl_append, List.foldl_append]
  rw [hrun,
    batchFold_fill (l.take 500) [] [] (by simp) (by simp [hA]),
    batchFold_fill ((l.drop 500).take 500) [] ([] ++ [[] ++ l.take 500])
      (by simp) (by simp [hB]),
    batchFold_small (l.drop 1000) []
      (([] ++ [[] ++ l.take 500]) ++ [[] ++ (l.drop 500).take 500])
      (by simp [hC])]
  refine ⟨by simp, by simp, hC, rfl, rfl⟩

/-- A trivial record for the C8 counterexample. -/
def c8Did : Did := ⟨"n0", 0, [], 1⟩

/-- C8 counterexample: the terminal flush does not clear the pending list.
In the concrete single-artifact run, the final member flush is issued (its
`add_files_to_dataset` event appears in the trace) yet the artifact is still
in the path's pending list afterwards; and on the isolated model the
terminal flush returns the pending list unchanged.  So "every flush clears
the pending list" fails for the final partial flush at `flushAll`. -/
theorem c8_batch_flush_counterexample :
    (finalFlush ∅ [c8Did]).1 = [c8Did]
    ∧ (finalFlush ∅ [c8Did]).2 = [c8Did]
    ∧ ([c8Did] : List Did) ≠ []
    ∧ ((runPipeline ⟨false, none, none⟩ [("thing", [c3ArtSci])]
        emptyTarget).events.contains
          (Event.addFiles "Dataset/thing" ["file-d"]) = true)
    ∧ assocGetD (runPipeline ⟨false, none, none⟩ [("thing", [c3ArtSci])]
        emptyTarget).pend "Dataset/thing" [] ≠ [] :=
  ⟨by decide, rfl, by decide, by decide, by decide⟩

/-- Witness for the amended C8 over 1200 concrete records. -/
theorem c8_batch_flush_amended_witness :
    (batchRun ((List.range 1200).map (fun i => (⟨toString i, 0, [], 1⟩ : Did)))).2
      = [((List.range 1200).map (fun i => (⟨toString i, 0, [], 1⟩ : Did))).take 500,
         (((List.range 1200).map (fun i => (⟨toString i, 0, [], 1⟩ : Did))).drop 500).take 500]
    ∧ (batchRun ((List.range 1200).map (fun i => (⟨toString i, 0, [], 1⟩ : Did)))).1
      = ((List.range 1200).map (fun i => (⟨toString i, 0, [], 1⟩ : Did))).drop 1000
    ∧ (((List.range 1200).map (fun i => (⟨toString i, 0, [], 1⟩ : Did))).drop 1000).length
      = 200 :=
  ⟨(c8_batch_flush_amended _ (by simp) ∅ []).1,
   (c8_batch_flush_amended _ (by simp) ∅ []).2.1,
   (c8_batch_flush_amended _ (by simp) ∅ []).2.2.1⟩
